import Mathlib

/-!
# Verification of the ELM327-emulator command engine (`src/elm/elm.py`)

Shallow embedding of the emulator's core request-processing engine:

* `Multiline_run` — the `Multiline.run` multi-frame (ISO-TP-like) reassembly task;
* `uds_answer` — the UDS 11-bit / 29-bit header, length and checksum encoder;
* `parsePCI` — the PCI-byte (length prefix) parsing block of `Elm.handle_request`;
* `handle_request` — request normalization, first-come-header mode, task
  management, catalog resolution and unknown-command handling;
* `resetElm` — `Elm.reset`; `setSortedOBDMsg` — the scenario-layer merge and
  priority sort; `validate` — the `ELM_VALID_CHARS` request filter.

Python strings are Lean `String`s (with list-based slicing helpers mirroring
Python slices); Python ints are `Nat`/`Int` (all the engine's arithmetic is on
non-negative values); Python `None` is `Option.none`.  A Lean result of `none`
(at the `Option`-returning functions) models a Python exception escaping the
function, or a path that leaves the modeled fragment (inline `exec`
directives and external plugin execution); every claim is settled on `some`
results.  Constants of the repository's `obd_message` module, which is not
under `src/`, are modeled from the spec and flagged as such in doc comments.
-/

/-! ## Python string and hex helpers -/

/-- Uppercase one ASCII character (`str.upper` restricted to ASCII, which is
all the engine's commands contain). -/
def asciiUpper (c : Char) : Char :=
  if 'a' ≤ c ∧ c ≤ 'z' then Char.ofNat (c.toNat - 32) else c

/-- Python `s.upper()` on ASCII strings. -/
def pyUpper (s : String) : String := ⟨s.data.map asciiUpper⟩

/-- Python `s.replace(" ", "")`. -/
def stripSpaces (s : String) : String := ⟨s.data.filter (fun c => c ≠ ' ')⟩

/-- Python slice `s[:n]`. -/
def pyTake (s : String) (n : Nat) : String := ⟨s.data.take n⟩

/-- Python slice `s[n:]`. -/
def pyDrop (s : String) (n : Nat) : String := ⟨s.data.drop n⟩

/-- Python `len(s)`. -/
def pyLen (s : String) : Nat := s.data.length

/-- Python slice `s[a:b]` (with `a ≤ b`). -/
def pySlice (s : String) (a b : Nat) : String := ⟨(s.data.drop a).take (b - a)⟩

/-- Characters of Python's `string.whitespace` (the ASCII ones the engine can
meet). -/
def isPyWs (c : Char) : Bool :=
  c = ' ' || c = '\t' || c = '\n' || c = '\r' || c = '\x0b' || c = '\x0c'

/-- Python `s.translate(maketrans('', '', string.whitespace))`: delete every
whitespace character, anywhere in the string. -/
def stripWs (s : String) : String := ⟨s.data.filter (fun c => ¬ isPyWs c)⟩

/-- Is `c` a hexadecimal digit? -/
def isHexDigitC (c : Char) : Bool :=
  ('0' ≤ c && c ≤ '9') || ('a' ≤ c && c ≤ 'f') || ('A' ≤ c && c ≤ 'F')

/-- Numeric value of a hexadecimal digit. -/
def hexVal (c : Char) : Nat :=
  if '0' ≤ c ∧ c ≤ '9' then c.toNat - '0'.toNat
  else if 'a' ≤ c ∧ c ≤ 'f' then c.toNat - 'a'.toNat + 10
  else if 'A' ≤ c ∧ c ≤ 'F' then c.toNat - 'A'.toNat + 10
  else 0

/-- Uppercase hexadecimal digit character for a value `< 16`. -/
def hexCharU (d : Nat) : Char :=
  if d < 10 then Char.ofNat ('0'.toNat + d) else Char.ofNat ('A'.toNat + d - 10)

/-- `Elm.is_hex_sp`: `re.match(r"^[0-9a-fA-F \t\r\n]*$", s)` — every character
is a hex digit, space, tab, CR or LF (the empty string matches). -/
def is_hex_sp (s : String) : Bool :=
  s.data.all (fun c => isHexDigitC c || c = ' ' || c = '\t' || c = '\r' || c = '\n')

/-- Python `int(s, 16)`: strip surrounding whitespace, then parse the hex
digits (the engine never passes signs, underscores or `0x` markers; interior
whitespace or an empty remainder raises `ValueError`, modeled as `none`). -/
def pyIntHex (s : String) : Option Nat :=
  let t := ((s.data.dropWhile isPyWs).reverse.dropWhile isPyWs).reverse
  if t = [] then none
  else if t.all isHexDigitC then some (t.foldl (fun a c => 16 * a + hexVal c) 0) else none

/-- Minimal-width uppercase hex digits of `n` (fuel-driven so that it reduces
in the kernel); fuel `n+1` always suffices. -/
def hexListAux : Nat → Nat → List Char
  | 0, _ => []
  | fuel + 1, n =>
    if n < 16 then [hexCharU n]
    else hexListAux fuel (n / 16) ++ [hexCharU (n % 16)]

/-- Python `hex(n)[2:].upper()` for `n ≥ 0`. -/
def pyHexUp (n : Nat) : String := ⟨hexListAux (n + 1) n⟩

/-- Python `"%02X" % n`: uppercase hex, zero-padded to at least two digits. -/
def fmt02X (n : Nat) : String := if n < 16 then "0" ++ pyHexUp n else pyHexUp n

/-- Two uppercase hex digits of a byte value (`'{:02x}'.format(b).upper()`
with `b < 256`). -/
def byteHexU (b : Nat) : String := ⟨[hexCharU (b / 16), hexCharU (b % 16)]⟩

/-- `bytearray.fromhex` worker: spaces may separate byte pairs; each byte is
exactly two hex digits; anything else raises `ValueError` (`none`). -/
def bytesFromHexAux : List Char → Option (List Nat)
  | [] => some []
  | c :: rest =>
    if c = ' ' then bytesFromHexAux rest
    else
      match rest with
      | [] => none
      | c2 :: rest2 =>
        if isHexDigitC c ∧ isHexDigitC c2 then
          (bytesFromHexAux rest2).map (fun bs => (16 * hexVal c + hexVal c2) :: bs)
        else none

/-- Python `bytearray.fromhex(s)` (as the list of byte values). -/
def bytesFromHex (s : String) : Option (List Nat) := bytesFromHexAux s.data

/-- `Elm.len_hex` used as a truth value: `len(bytearray.fromhex(s))` is
truthy iff `s` parses as raw hex bytes and is non-empty (`False` on a
`ValueError`). -/
def len_hex (s : String) : Bool :=
  match bytesFromHex s with
  | some bs => bs.length ≠ 0
  | none => false

/-- Python `sp.join(parts)`. -/
def spJoin (sp : String) : List String → String
  | [] => ""
  | [x] => x
  | x :: y :: rest => x ++ sp ++ spJoin sp (y :: rest)

/-- Python `repr` of a command string (the engine's commands contain no quote
or escape characters, so `repr` just wraps in single quotes). -/
def pyRepr (s : String) : String := "'" ++ s ++ "'"

/-- `p.data` is a prefix of `s.data` (`s.startswith(p)`). -/
def strHasPfx (p s : String) : Bool := p.data.isPrefixOf s.data

/-- `re.match(r"^P *\r", s) is not None`: literal `P`, then spaces, then CR
(since a space never equals CR, the greedy star is exact). -/
def matchPfxSpacesCR (p s : String) : Bool :=
  strHasPfx p s && (((s.data.drop p.data.length).dropWhile (fun c => c = ' ')).head? = some '\r')

/-! ## Counter values (`Elm.counters` holds strings, ints and booleans) -/

/-- A value stored in the `counters` dictionary. -/
inductive CVal where
  | str (s : String)
  | int (n : Int)
  | bool (b : Bool)
deriving DecidableEq, Repr

/-- Python truthiness of a counter value. -/
def CVal.truthy : CVal → Bool
  | .str s => s ≠ ""
  | .int n => n ≠ 0
  | .bool b => b

/-- Python `v == m` against an int literal (`True == 1` holds in Python). -/
def CVal.eqInt : CVal → Int → Bool
  | .str _, _ => false
  | .int n, m => n = m
  | .bool b, m => (if b then (1 : Int) else 0) = m

/-- Truthiness of an optional dictionary entry (`k in d and d[k]`). -/
def optCTruthy : Option CVal → Bool
  | none => false
  | some v => v.truthy

/-- Counters dictionary: insertion-ordered association list with unique keys
(`dict` semantics). -/
abbrev Counters := List (String × CVal)

/-- Dictionary lookup. -/
def cget : Counters → String → Option CVal
  | [], _ => none
  | (k, v) :: rest, key => if k = key then some v else cget rest key

/-- Dictionary assignment: update in place, or append a new key. -/
def cset : Counters → String → CVal → Counters
  | [], key, v => [(key, v)]
  | (k, w) :: rest, key, v =>
    if k = key then (k, v) :: rest else (k, w) :: cset rest key v

/-- `if k not in counters: counters[k] = 0` followed by `counters[k] += 1`;
`none` models the `TypeError` of `+= 1` on a string value. -/
def cIncrInit (c : Counters) (k : String) : Option Counters :=
  match cget c k with
  | none => some (cset c k (.int 1))
  | some (.int n) => some (cset c k (.int (n + 1)))
  | some (.bool b) => some (cset c k (.int ((if b then (1 : Int) else 0) + 1)))
  | some (.str _) => none

/-! ## The `Multiline` task (`Multiline.run`, `src/elm/elm.py:206-261`) -/

/-- The mutable fields of a `Tasks`/`Multiline` instance used by `run`
(`frame`, `length`, `req`, `flow_control`, `flow_control_end`). -/
structure MLState where
  frame : Option Nat
  length : Option Nat
  req : String
  flow_control : Nat
  flow_control_end : Nat
deriving DecidableEq, Repr

/-- A freshly constructed `Multiline` (from `Tasks.__init__`): no frame or
length yet, empty collected request, flow-control counter `0` with block
size `0x20`. -/
def mlInit : MLState := ⟨none, none, "", 0, 32⟩

/-- Return value of a task method: `Tasks.TASK.ERROR`, `INCOMPLETE` or
`PASSTHROUGH`; `exn` models an uncaught exception inside the method (a
`TypeError` on a `None` operand), which `task_action` converts to the same
`ERROR` triple but without the completion accounting. -/
inductive TaskResult where
  | exn
  | error
  | incomplete
  | passthrough (cmd : String)
deriving DecidableEq, Repr

/-- Truthiness of the `frame`/`length` attributes (`if self.frame or
self.length`). -/
def optTruthy : Option Nat → Bool
  | none => false
  | some n => n ≠ 0

/-- The flow-control block and completion check shared by the First-Frame and
Consecutive-Frame paths of `Multiline.run` (lines 242-261): the cadence
counter is decremented, or a Flow-Control frame is emitted (unless `cmd_cfc`
disables it) and the counter restarts at `flow_control_end - 1`; then the
collected payload is compared with twice the declared byte length.  The `Nat`
result counts emitted Flow-Control frames. -/
def mlFlowCompl (cfc : Option CVal) (s : MLState) : MLState × TaskResult × Nat :=
  let fcStep :=
    if s.flow_control ≠ 0 then ({ s with flow_control := s.flow_control - 1 }, 0)
    else
      let emit : Bool := match cfc with | none => true | some v => v.eqInt 1
      ({ s with flow_control := s.flow_control_end - 1 }, if emit then 1 else 0)
  let s1 := fcStep.1
  match s1.length with
  | none => (s1, .exn, fcStep.2)
  | some L =>
    if L * 2 ≤ pyLen s1.req then
      ({ s1 with frame := none }, .passthrough (pyTake s1.req (L * 2)), fcStep.2)
    else (s1, .incomplete, fcStep.2)

/-- `Multiline.run(cmd, length, frame)`.  Faithful to the source's branch
order: First Frame (`frame == 0 and length > 0`; comparing `None > 0` raises,
modeled `.exn`), valid Consecutive Frame (`frame > 0 and self.frame == frame
and length is None`), Single Frame (`(length is None or length > 0) and frame
is None and self.frame is None`), otherwise `ERROR`. -/
def Multiline_run (cfc : Option CVal) (s : MLState) (cmd : String)
    (length frame : Option Nat) : MLState × TaskResult × Nat :=
  match frame with
  | some 0 =>
    match length with
    | none => (s, .exn, 0)
    | some l =>
      if 0 < l then
        if optTruthy s.frame || optTruthy s.length then (s, .error, 0)
        else mlFlowCompl cfc { s with req := cmd, frame := some 1, length := some l }
      else (s, .error, 0)
  | some (f + 1) =>
    if s.frame = some (f + 1) ∧ length = none then
      mlFlowCompl cfc { s with req := s.req ++ cmd, frame := some (f + 2) }
    else (s, .error, 0)
  | none =>
    match length with
    | none =>
      if s.frame = none then
        ({ s with req := cmd, length := none }, .passthrough cmd, 0)
      else (s, .error, 0)
    | some l =>
      if 0 < l ∧ s.frame = none then
        ({ s with req := cmd, length := some l }, .passthrough (pyTake cmd (l * 2)), 0)
      else (s, .error, 0)

/-- Feed a sequence of `(cmd, length, frame)` frames to one `Multiline` task,
collecting each call's result. -/
def mlFeedSeq (cfc : Option CVal) (s : MLState) :
    List (String × Option Nat × Option Nat) → MLState × List TaskResult
  | [] => (s, [])
  | (cmd, l, f) :: rest =>
    let step := Multiline_run cfc s cmd l f
    let next := mlFeedSeq cfc step.1 rest
    (next.1, step.2.1 :: next.2)

/-- Is a task result a `PASSTHROUGH`? -/
def TaskResult.isPassthrough : TaskResult → Bool
  | .passthrough _ => true
  | _ => false

/-! ## The UDS encoder (`Elm.uds_answer`, `src/elm/elm.py:1009-1054`) -/

/-- Truthiness of the `flow_control` argument (`None` or a string). -/
def fcTruthy : Option String → Bool
  | none => false
  | some s => s ≠ ""

/-- `Elm.uds_answer(data, request_header, use_headers, sp, flow_control)`.

The `None` result models an exception escaping the method: an
`AttributeError` when no request header can be resolved, a `ValueError` from
`int(request_header, 16)` on a non-hex 3-digit header with headers enabled,
or the uncaught `ValueError` of the 29-bit checksum's
`bytearray.fromhex(answer)` re-parse.  Logged error paths return `some ""`
(the empty answer), exactly as the source returns `""`. -/
def uds_answer (counters : Counters) (data : String) (request_header : Option String)
    (use_headers : Bool) (sp : String) (flow_control : Option String) : Option String :=
  let rh0 : Option String :=
    match request_header with
    | some h => some h
    | none =>
      match cget counters "cmd_set_header" with
      | some (.str h) => some h
      | _ => none
  match rh0 with
  | none => none
  | some h0 =>
    let h := pyUpper (stripWs h0)
    if h = "" then some ""
    else
      match bytesFromHex data with
      | none => some ""
      | some bs =>
        let length := bs.length
        let dataS := pyUpper (spJoin sp (bs.map (fun b => ⟨[hexCharU (b / 16), hexCharU (b % 16)]⟩)))
        if pyLen h = 3 ∧ fcTruthy flow_control then
          match (if use_headers then (pyIntHex h).map (fun v => pyHexUp (v + 8) ++ sp) else some "") with
          | none => none
          | some pre =>
            some (pre ++ (flow_control.getD "") ++ sp ++ dataS)
        else if pyLen h = 3 then
          match (if use_headers then
                   (pyIntHex h).map (fun v => pyHexUp (v + 8) ++ sp ++ fmt02X length ++ sp)
                 else some "") with
          | none => none
          | some pre => some (pre ++ dataS)
        else if pyLen h = 6 ∧ fcTruthy flow_control then some ""
        else if pyLen h = 6 then
          if ¬ use_headers then some ""
          else
            let ans :=
              if length < 10 then
                pyHexUp (128 + length) ++ sp ++ pySlice h 4 6 ++ sp ++ pySlice h 2 4 ++ sp ++ dataS
              else
                "80 " ++ pySlice h 4 6 ++ sp ++ pySlice h 2 4 ++ sp ++
                  pyHexUp length ++ sp ++ dataS
            match bytesFromHex ans with
            | none => none
            | some abs => some (ans ++ " " ++ fmt02X (abs.sum % 256))
        else some ""

/-! ## PCI-byte parsing (`Elm.handle_request`, `src/elm/elm.py:1402-1442`) -/

/-- Outcome of the length-prefix block: an error (the source logs and
`return`s the empty response `""`) or the possibly sliced command together
with the optional byte `length` and `frame` index. -/
inductive PCIResult where
  | err
  | ok (cmd : String) (length : Option Nat) (frame : Option Nat)
deriving DecidableEq, Repr

/-- The guard of the length-prefix block: `'cmd_caf' in counters and not
counters['cmd_caf'] and size != 'AT' and is_hex_sp(size)` with
`size = cmd[:2]`. -/
def pciEnabled (c : Counters) (cmd : String) : Bool :=
  (match cget c "cmd_caf" with
   | some v => ¬ v.truthy
   | none => false) &&
  (pyTake cmd 2 ≠ "AT" : Bool) && is_hex_sp (pyTake cmd 2)

/-- The body of the length-prefix block: parse `int(cmd[:2], 16)`; sizes
`0–15` slice the payload after checking its length; size `16` reads the byte
length from `cmd[2:4]` and marks frame `0`; other sizes strip the prefix and,
above `32`, mark Consecutive-Frame index `size − 32`. -/
def parsePCI (cmd : String) : PCIResult :=
  match pyIntHex (pyTake cmd 2) with
  | none => .err
  | some intSize =>
    let payload := pyDrop cmd 2
    if payload = "" then .err
    else if intSize < 16 then
      if pyLen payload < intSize * 2 then .err
      else .ok (pyTake payload (intSize * 2)) (some intSize) none
    else if intSize = 16 then
      match pyIntHex (pySlice cmd 2 4) with
      | none => .err
      | some l => .ok (pyDrop cmd 4) (some l) (some 0)
    else
      .ok (pyDrop cmd 2) none (if intSize > 32 then some (intSize - 32) else none)

/-! ## Multi-frame reassembly lemmas -/

/-- Concatenation of a list of strings. -/
def strConcat : List String → String
  | [] => ""
  | d :: ds => d ++ strConcat ds

/-- Total character length of a list of strings. -/
def sumLens (l : List String) : Nat := (l.map pyLen).sum

/-- Feed Consecutive Frames (payloads `ds`, indices `i, i+1, …`, no length
field) to a `Multiline` task, collecting each call's result. -/
def mlFeedCF (cfc : Option CVal) (s : MLState) (i : Nat) :
    List String → MLState × List TaskResult
  | [] => (s, [])
  | d :: ds =>
    let step := Multiline_run cfc s d none (some i)
    let next := mlFeedCF cfc step.1 (i + 1) ds
    (next.1, step.2.1 :: next.2)

/-- The task is collecting: expected next frame `i`, declared length `L`,
payload so far `r`. -/
def collecting (L i : Nat) (r : String) (s : MLState) : Prop :=
  s.frame = some i ∧ s.length = some L ∧ s.req = r

theorem pyLen_append (a b : String) : pyLen (a ++ b) = pyLen a + pyLen b := by
  simp [pyLen, String.data_append]

/-- One accepted Consecutive Frame that does not yet complete the payload:
`INCOMPLETE`, and the task keeps collecting with the appended payload. -/
theorem ml_cf_step_incomplete (cfc : Option CVal) (s : MLState) (d r : String)
    (L i : Nat) (hc : collecting L (i + 1) r s)
    (hlt : pyLen (r ++ d) < L * 2) :
    ∃ s' n, Multiline_run cfc s d none (some (i + 1)) = (s', .incomplete, n) ∧
      collecting L (i + 2) (r ++ d) s' := by
  obtain ⟨hf, hl, hr⟩ := hc
  simp only [Multiline_run, hf, hl, hr, and_true, if_pos rfl, mlFlowCompl]
  by_cases hfc : s.flow_control ≠ 0 <;>
    simp [hfc, hl, Nat.not_le.mpr hlt, collecting]

/-- One accepted Consecutive Frame that reaches the declared length: the run
returns `PASSTHROUGH` of the collected payload truncated to `2·L` hex digits
and resets the frame counter. -/
theorem ml_cf_step_complete (cfc : Option CVal) (s : MLState) (d r : String)
    (L i : Nat) (hc : collecting L (i + 1) r s)
    (hge : L * 2 ≤ pyLen (r ++ d)) :
    ∃ s' n, Multiline_run cfc s d none (some (i + 1)) =
        (s', .passthrough (pyTake (r ++ d) (L * 2)), n) ∧ s'.frame = none := by
  obtain ⟨hf, hl, hr⟩ := hc
  simp only [Multiline_run, hf, hl, hr, and_true, if_pos rfl, mlFlowCompl]
  by_cases hfc : s.flow_control ≠ 0 <;> simp [hfc, hl, hge]

theorem strConcat_cons (d : String) (ds : List String) :
    strConcat (d :: ds) = d ++ strConcat ds := rfl

theorem sumLens_take_succ (d : String) (ds : List String) (k : Nat) :
    sumLens ((d :: ds).take (k + 1)) = pyLen d + sumLens (ds.take k) := by
  simp [sumLens]

theorem mlFeedCF_cons (cfc : Option CVal) (s : MLState) (i : Nat) (d : String)
    (ds : List String) :
    mlFeedCF cfc s i (d :: ds) =
      ((mlFeedCF cfc (Multiline_run cfc s d none (some i)).1 (i + 1) ds).1,
       (Multiline_run cfc s d none (some i)).2.1 ::
         (mlFeedCF cfc (Multiline_run cfc s d none (some i)).1 (i + 1) ds).2) := rfl

/-- Feeding Consecutive Frames `i, i+1, …` while the cumulative payload stays
short of `2·L` keeps returning `INCOMPLETE`, and the frame that reaches `2·L`
returns the truncated passthrough exactly once (it is the last call), with
the frame state reset. -/
theorem mlFeedCF_spec (cfc : Option CVal) (L : Nat) :
    ∀ (cfs : List String) (s : MLState) (i : Nat) (r : String),
      collecting L (i + 1) r s →
      (∀ k, k < cfs.length → pyLen r + sumLens (cfs.take k) < L * 2) →
      cfs ≠ [] →
      L * 2 ≤ pyLen r + sumLens cfs →
      ∃ sfin, mlFeedCF cfc s (i + 1) cfs =
          (sfin, List.replicate (cfs.length - 1) .incomplete ++
                 [.passthrough (pyTake (r ++ strConcat cfs) (L * 2))]) ∧
        sfin.frame = none := by
  intro cfs
  induction cfs with
  | nil => intro _ _ _ _ _ h; exact absurd rfl h
  | cons d ds ih =>
    intro s i r hc hmid _ hfull
    cases ds with
    | nil =>
      have hge : L * 2 ≤ pyLen (r ++ d) := by
        simp [sumLens] at hfull
        rw [pyLen_append]; omega
      obtain ⟨s', n, hrun, hfr⟩ := ml_cf_step_complete cfc s d r L i hc hge
      refine ⟨s', ?_, hfr⟩
      rw [mlFeedCF_cons, hrun]
      simp [mlFeedCF, strConcat, String.append_empty]
    | cons d' ds' =>
      have hlt : pyLen (r ++ d) < L * 2 := by
        have h1 := hmid 1 (by simp)
        simp [sumLens] at h1 ⊢
        rw [pyLen_append]; omega
      obtain ⟨s', n, hrun, hc'⟩ := ml_cf_step_incomplete cfc s d r L i hc hlt
      have hmid' : ∀ k, k < (d' :: ds').length → pyLen (r ++ d) + sumLens ((d' :: ds').take k) < L * 2 := by
        intro k hk
        have := hmid (k + 1) (by simpa using Nat.succ_lt_succ hk)
        rw [sumLens_take_succ] at this
        rw [pyLen_append]; omega
      have hfull' : L * 2 ≤ pyLen (r ++ d) + sumLens (d' :: ds') := by
        have : sumLens (d :: d' :: ds') = pyLen d + sumLens (d' :: ds') := by simp [sumLens]
        rw [pyLen_append]; omega
      obtain ⟨sfin, hfeed, hfr⟩ := ih s' (i + 1) (r ++ d) hc' hmid' (by simp) hfull'
      refine ⟨sfin, ?_, hfr⟩
      rw [mlFeedCF_cons, hrun]
      simp [hfeed, strConcat, List.replicate_succ, String.append_assoc]

/-- The First Frame from a fresh `Multiline` task with a positive declared
length that does not already cover the payload: accepted, `INCOMPLETE`,
collecting onward from frame `1`. -/
theorem ml_ff_step (cfc : Option CVal) (d : String) (L : Nat) (hL : 0 < L)
    (hlt : pyLen d < L * 2) :
    ∃ s1 n, Multiline_run cfc mlInit d (some L) (some 0) = (s1, .incomplete, n) ∧
      collecting L 1 d s1 := by
  simp only [Multiline_run, mlInit, optTruthy, mlFlowCompl]
  simp [hL, Nat.not_le.mpr hlt, collecting]

/-! ## Constants of the `obd_message` module (not under `src/`) -/

/-- Modelled from the spec: the repository's `obd_message` module (outside
`src/`) supplies `ST`, which renders a literal string reply through the
`<string>` template tag of the spec's response-template vocabulary (the name
`ST` itself is taken by Mathlib, hence `STmsg`). -/
def STmsg (s : String) : String := "<string>" ++ s ++ "</string>"

/-- Modelled from the spec: `ELM_R_UNKNOWN`, the fixed reply to an
unrecognized AT-style command, is the `"?"` marker (spec: «an unrecognized
AT-style command yields "?"»). -/
def ELM_R_UNKNOWN : String := STmsg "?"

/-- Modelled from the spec: `ELM_R_OK` is the affirmative reply literal used
when a catalog entry has no `Response` attribute; its exact text is fixed by
the missing `obd_message` module and is irrelevant to every claim below. -/
def ELM_R_OK : String := STmsg "OK"

/-- Modelled from the spec: `ECU_ADDR_E`, the default engine ECU request
header restored by `Elm.reset`; its exact value comes from the missing
`obd_message` module and no claim below depends on it. -/
def ECU_ADDR_E : String := "7E0"

/-! ## The message catalog (`ScenarioEntry`) and the engine state -/

/-- A catalog entry's `Response` value: `None`, a literal string, or a list
of alternatives (one is chosen by `randint`). -/
inductive RespVal where
  | noneV
  | strv (s : String)
  | listv (l : List String)

/-- One row of the message catalog.  The `Request` regular expression is
embedded as its match predicate (`re.match(val['Request'], cmd)` viewed as a
boolean function of the command); `ResponseHeader`/`ResponseFooter` are
arbitrary Python callables, so only their presence is recorded — entries
carrying them (or an `Exec` directive) leave the modeled fragment. -/
structure Entry where
  request : Option (String → Bool)
  eheader : Option String
  priority : Option Int
  response : Option RespVal
  action : Option String
  taskName : Option String
  execA : Option String
  hasRespHeader : Bool := false
  hasRespFooter : Bool := false

/-- `x[1]['Priority'] if 'Priority' in x[1] else 10`. -/
def entryPrio (e : Entry) : Int := e.priority.getD 10

/-- Association-list lookup for string-keyed dictionaries of entries. -/
def alookup {α : Type} : List (String × α) → String → Option α
  | [], _ => none
  | (k, v) :: rest, key => if k = key then some v else alookup rest key

/-- Python `{**d1, **d2}` on insertion-ordered dictionaries: keys of `d1` in
order (values overridden by `d2` where present), then the new keys of `d2`. -/
def dictMerge {α : Type} (d1 d2 : List (String × α)) : List (String × α) :=
  d1.map (fun kv => (kv.1, (alookup d2 kv.1).getD kv.2)) ++
    d2.filter (fun kv => (alookup d1 kv.1).isNone)

/-- A task table entry: the per-header `Multiline` state (the only task type
the modeled fragment instantiates; external plugin tasks leave the
fragment). -/
abbrev TaskTable := List (Option CVal × MLState)

/-- Task-table lookup (`self.tasks[header]`). -/
def tlookup : TaskTable → Option CVal → Option MLState
  | [], _ => none
  | (k, v) :: rest, key => if k = key then some v else tlookup rest key

/-- Task-table assignment. -/
def tset : TaskTable → Option CVal → MLState → TaskTable
  | [], key, v => [(key, v)]
  | (k, w) :: rest, key, v =>
    if k = key then (k, v) :: rest else (k, w) :: tset rest key v

/-- Task-table deletion (`del self.tasks[header]`). -/
def tdel : TaskTable → Option CVal → TaskTable
  | [], _ => []
  | (k, w) :: rest, key => if k = key then rest else (k, w) :: tdel rest key

/-- The mutable state of the `Elm` engine that `handle_request` reads and
writes: the counters dictionary, the per-header task table, the active
scenario, the scenario catalog `ObdMessage`, the cached priority-sorted
merged catalog, the `answer` override dictionary, the names of loaded task
plugins, and the preset defaults applied by `reset`. -/
structure ElmState where
  counters : Counters
  tasks : TaskTable
  scenario : String
  obdMessage : List (String × List (String × Entry))
  sortedOBDMsg : List (String × Entry)
  answer : List (String × String)
  plugins : List String
  presets : Counters

/-- `lambda x: x[1]['Priority'] if 'Priority' in x[1] else 10` as the sort
relation of the stable (Python `sorted`) priority sort. -/
def prioLE (a b : String × Entry) : Prop := entryPrio a.2 ≤ entryPrio b.2

instance : DecidableRel prioLE := fun _ _ => inferInstanceAs (Decidable (_ ≤ _))

instance : IsTotal (String × Entry) prioLE :=
  ⟨fun a b => Int.le_total (entryPrio a.2) (entryPrio b.2)⟩

instance : IsTrans (String × Entry) prioLE :=
  ⟨fun _ _ _ h1 h2 => le_trans h1 h2⟩

attribute [simp] prioLE

/-- `Elm.setSortedOBDMsg` (`src/elm/elm.py:314-329`): overlay the `default`,
`AT` and active scenario layers (`{**default, **AT, **scenario}`, later
layers overriding same-named keys) and sort the union by ascending
`Priority`, entries without one counting as `10`; Python's `sorted` is
stable, which `List.insertionSort` with a `≤` relation reproduces.  `none`
models the `KeyError` of a missing scenario name. -/
def setSortedOBDMsg (s : ElmState) (scenario : Option String) : Option ElmState :=
  let s := match scenario with
           | some sc => { s with scenario := sc }
           | none => s
  let merged :=
    if ((alookup s.obdMessage "default").isSome ∧ (alookup s.obdMessage "AT").isSome) then
      (alookup s.obdMessage s.scenario).map (fun scn =>
        dictMerge (dictMerge ((alookup s.obdMessage "default").getD [])
            ((alookup s.obdMessage "AT").getD [])) scn)
    else alookup s.obdMessage s.scenario
  merged.map (fun m => { s with sortedOBDMsg := m.insertionSort prioLE })

/-! ## Catalog resolution and unknown commands (`Elm.handle_request`) -/

/-- Result of the catalog scan loop: an entry was selected and produced a
response value (`resp = none` models Python `None`), or no entry matched. -/
inductive ScanRes where
  | sel (pid : String) (resp : Option String)
  | nomatch
deriving DecidableEq, Repr

/-- Truthiness of the local `header` variable (`'Header' in val and header
and …`). -/
def hdrTruthy : Option CVal → Bool
  | none => false
  | some v => v.truthy

/-- Python `val['Header'] != counters['cmd_set_header']` (values of different
types compare unequal). -/
def headerNeq (eh : String) : Option CVal → Bool
  | some (.str h) => eh ≠ h
  | _ => true

/-- The `for i in self.sortedOBDMsg` loop of `handle_request`
(`src/elm/elm.py:1471-1572`): first entry whose `Request` matches wins,
unless its `Header` constraint fails (skipped before counting) or its
`Action` is `skip` (counted, then skipped).  A selected entry increments its
hit counter, honors an `answer` override, rejects an unknown task plugin
with a `None` response, and otherwise renders its `Response` (a list picks
the `randint` alternative, supplied as the oracle `rnd`); a missing
`Response` yields `ELM_R_OK`.  `none` models the out-of-fragment paths: a
loaded plugin's `Task`, an `Exec` directive, or `ResponseHeader` /
`ResponseFooter` callables. -/
def scanLoop (setHdr : Option CVal) (headerTru : Bool) (answer : List (String × String))
    (plugins : List String) (rnd : Nat) (cmd : String) :
    Counters → List (String × Entry) → Option (Counters × ScanRes)
  | c, [] => some (c, .nomatch)
  | c, (key, val) :: rest =>
    match val.request with
    | none => scanLoop setHdr headerTru answer plugins rnd cmd c rest
    | some q =>
      if q cmd then
        if val.eheader.isSome ∧ headerTru ∧
            headerNeq (val.eheader.getD "") setHdr then
          scanLoop setHdr headerTru answer plugins rnd cmd c rest
        else
          let pid := if key = "" then "UNKNOWN" else key
          match cIncrInit c pid with
          | none => none
          | some c' =>
            if val.action = some "skip" then
              scanLoop setHdr headerTru answer plugins rnd cmd c' rest
            else
              match alookup answer pid with
              | some a => some (c', .sel pid (some a))
              | none =>
                match val.taskName with
                | some t => if t ∈ plugins then none else some (c', .sel pid none)
                | none =>
                  if val.execA.isSome then none
                  else if val.hasRespHeader ∨ val.hasRespFooter then none
                  else
                    match val.response with
                    | none => some (c', .sel pid (some ELM_R_OK))
                    | some .noneV => some (c', .sel pid none)
                    | some (.strv r) => some (c', .sel pid (some r))
                    | some (.listv l) =>
                      some (c', .sel pid (some (l.getD (rnd % l.length) "")))
      else scanLoop setHdr headerTru answer plugins rnd cmd c rest

/-- The forwarding collaborator's result (`send_receive_forward`): `False`
(no connection), `None` (no data) or the decoded string. -/
inductive ForwardResult where
  | noConn
  | noData
  | data (s : String)
deriving DecidableEq, Repr

/-- `fw_data is not False`. -/
def fwNotFalse : ForwardResult → Bool
  | .noConn => false
  | _ => true

/-- `fw_data or ""`. -/
def fwOrEmpty : ForwardResult → String
  | .data s => s
  | _ => ""

/-- Python `repr(fw_data)`. -/
def fwRepr : ForwardResult → String
  | .noConn => "False"
  | .noData => "None"
  | .data s => pyRepr s

/-- The unknown-command tail of `handle_request` (`src/elm/elm.py:1573-1602`):
increment the per-text `unknown_<repr(cmd)>` counter, return the empty
response for an empty command, record the forwarding collaborator's reply,
escalate (`logging.warning`, the boolean of the result) only when forwarding
produced data that is not `NO DATA`/`?` and the counter equals `1`, and
answer `ST('NO DATA')` when the command parses as raw hex bytes, the `"?"`
marker (`ELM_R_UNKNOWN`) otherwise. -/
def huCounters (c1 : Counters) (fw : ForwardResult) (key : String) : Counters :=
  if fwNotFalse fw then cset c1 (key ++ "_R") (.str (fwRepr fw)) else c1

/-- The guard of the `'Missing data in dictionary'` warning: forwarding
produced something other than `False`, the reply matches neither
`^NO DATA *\r` nor `^\? *\r`, and the per-text counter equals `1`. -/
def huEscalate (c2 : Counters) (fw : ForwardResult) (key : String) : Bool :=
  fwNotFalse fw &&
    ¬ matchPfxSpacesCR "NO DATA" (fwOrEmpty fw) &&
    ¬ matchPfxSpacesCR "?" (fwOrEmpty fw) &&
    (match cget c2 key with | some v => v.eqInt 1 | none => false)

def handleUnknown (c : Counters) (fw : ForwardResult) (cmd : String) :
    Option (Counters × Option String × Bool) :=
  let key := "unknown_" ++ pyRepr cmd
  match cIncrInit c key with
  | none => none
  | some c1 =>
    if cmd = "" then some (c1, some "", false)
    else
      let c2 := huCounters c1 fw key
      if len_hex cmd then some (c2, some (STmsg "NO DATA"), huEscalate c2 fw key)
      else some (c2, some ELM_R_UNKNOWN, huEscalate c2 fw key)

/-- Results of `handle_request`: the (possibly updated) request header, the
final request data, the response (`none` = Python `None` = nothing to
render), the number of Flow-Control frames emitted while the `Multiline`
task ran, and whether the unknown-command escalation fired. -/
structure HRResult where
  header : Option CVal
  reqData : String
  resp : Option String
  fc : Nat
  escalated : Bool

/-- Catalog resolution of a command (the part of `handle_request` from line
1470 on): scan the sorted catalog, falling back to the unknown-command
tail. -/
def resolveCmd (s : ElmState) (fw : ForwardResult) (rnd : Nat)
    (header : Option CVal) (fcAcc : Nat) (cmd : String) :
    Option (ElmState × HRResult) :=
  match scanLoop (cget s.counters "cmd_set_header") (hdrTruthy header)
      s.answer s.plugins rnd cmd s.counters s.sortedOBDMsg with
  | none => none
  | some (c', .sel _ resp) =>
    some ({ s with counters := c' }, ⟨header, cmd, resp, fcAcc, false⟩)
  | some (c', .nomatch) =>
    match handleUnknown c' fw cmd with
    | none => none
    | some (c'', resp, esc) =>
      some ({ s with counters := c'' }, ⟨header, cmd, resp, fcAcc, esc⟩)

/-- `Elm.task_action` specialized to the `Multiline` task
(`src/elm/elm.py:1284-1340`; `Multiline` overrides neither `start` nor
`stop`, so all three methods run `Multiline.run`): run the task, then — on a
normal `TERMINATE` — run `account_task` (which increments the counter named
`__module__[12:]`, the empty string for `Multiline`, defined in `elm.elm`)
and delete the task; an in-method exception (`.exn`) deletes the task
without accounting; a `CONTINUE` keeps the mutated task state.  Returns the
new engine state, `r_cmd` (always `None` for `Multiline`), `r_task`
(`CONTINUE` boolean), `r_cont` and the Flow-Control emission count. -/
def taskActionML (s : ElmState) (h : Option CVal) (cmd : String)
    (length frame : Option Nat) :
    Option (ElmState × Option String × Bool × Option String × Nat) :=
  match tlookup s.tasks h with
  | none => none
  | some ms =>
    let step := Multiline_run (cget s.counters "cmd_cfc") ms cmd length frame
    match step.2.1 with
    | .exn => some ({ s with tasks := tdel s.tasks h }, none, false, none, step.2.2)
    | .error =>
      match cIncrInit s.counters "" with
      | none => none
      | some c' =>
        some ({ s with counters := c', tasks := tdel s.tasks h }, none, false, none, step.2.2)
    | .incomplete =>
      some ({ s with tasks := tset s.tasks h step.1 }, none, true, none, step.2.2)
    | .passthrough pc =>
      match cIncrInit s.counters "" with
      | none => none
      | some c' =>
        some ({ s with counters := c', tasks := tdel s.tasks h }, none, false, some pc, step.2.2)

/-- Task management and catalog resolution (the part of `handle_request`
after the length-prefix block, lines 1444-1602): create a `Multiline` task
when a First Frame arrives for a task-free header; if a task owns the
header, feed it the payload through `task_action` when the payload is hex
(`run`), or interrupt it (`stop`, then delete) otherwise; a `r_cont`
passthrough re-enters catalog resolution with the reconstructed command. -/
def afterPCI (s : ElmState) (fw : ForwardResult) (rnd : Nat)
    (header : Option CVal) (cmd : String) (length frame : Option Nat) :
    Option (ElmState × HRResult) :=
  let s1 := if (tlookup s.tasks header).isNone ∧ length ≠ none ∧ frame ≠ none then
      { s with tasks := tset s.tasks header mlInit }
    else s
  match tlookup s1.tasks header with
  | none => resolveCmd s1 fw rnd header 0 cmd
  | some _ =>
    if len_hex cmd then
      match taskActionML s1 header cmd length frame with
      | none => none
      | some (s2, rCmd, _, none, n) => some (s2, ⟨header, cmd, rCmd, n, false⟩)
      | some (s2, _, _, some pc, n) => resolveCmd s2 fw rnd header n pc
    else
      match taskActionML s1 header cmd length frame with
      | none => none
      | some (s2, rCmd, _, rCont, n) =>
        let s3 := { s2 with tasks := tdel s2.tasks header }
        match rCont with
        | none => some (s3, ⟨header, cmd, rCmd, n, false⟩)
        | some pc => resolveCmd s3 fw rnd header n pc

/-- `Elm.handle_request(cmd)` (`src/elm/elm.py:1353-1602`).  The forwarding
collaborator's answer (`fw`) and the `randint` draw used for list responses
(`rnd`) are oracle inputs; `none` models an exception escaping the method
(caught by the caller's loop), or a path leaving the modeled fragment.  The
engine's sequence: strip spaces and uppercase; count the request; read the
configured header; bail out on an unknown scenario; apply the experimental
first-come-header (`cmd_fcsm`) block; apply the length-prefix (`cmd_caf`)
block; manage tasks and resolve the command. -/
def handle_request (s : ElmState) (fw : ForwardResult) (rnd : Nat) (cmd0 : String) :
    Option (ElmState × HRResult) :=
  let cmd1 := pyUpper (stripSpaces cmd0)
  match cIncrInit s.counters "commands" with
  | none => none
  | some c1 =>
    let header0 := cget c1 "cmd_set_header"
    let s1 : ElmState := { s with counters := c1 }
    if (alookup s1.obdMessage s1.scenario).isNone then
      some (s1, ⟨header0, cmd1, some "", 0, false⟩)
    else
      let fcsmOn := optCTruthy (cget c1 "cmd_fcsm") ∧ pyTake cmd1 2 ≠ "AT" ∧
          is_hex_sp (pyTake cmd1 3)
      let cFcsm := cset (cset (cset c1 "cmd_set_header" (.str (pyTake cmd1 3)))
        "cmd_caf" (.bool false)) "cmd_use_header" (.bool true)
      let s2 : ElmState := if fcsmOn then { s1 with counters := cFcsm } else s1
      let header1 := if fcsmOn then some (CVal.str (pyTake cmd1 3)) else header0
      let cmd2 := if fcsmOn then pyDrop cmd1 3 else cmd1
      if pciEnabled s2.counters cmd2 then
        match parsePCI cmd2 with
        | .err => some (s2, ⟨header1, cmd2, some "", 0, false⟩)
        | .ok cmd3 length frame => afterPCI s2 fw rnd header1 cmd3 length frame
      else afterPCI s2 fw rnd header1 cmd2 none none

/-! ## Reset and request validation -/

/-- `Elm.reset` (`src/elm/elm.py:289-301`): delete every counter whose key
starts with `cmd_`, zero `ELM_PIDS_A` and `ELM_MIDS_A`, restore
`cmd_set_header` to `ECU_ADDR_E`, overlay the presets, and empty the task
table. -/
def resetElm (s : ElmState) : ElmState :=
  let c1 := s.counters.filter (fun kv => ¬ strHasPfx "cmd_" kv.1)
  let c2 := cset (cset (cset c1 "ELM_PIDS_A" (.int 0)) "ELM_MIDS_A" (.int 0))
    "cmd_set_header" (.str ECU_ADDR_E)
  let c3 := s.presets.foldl (fun c kv => cset c kv.1 kv.2) c2
  { s with counters := c3, tasks := [] }

/-- `Elm.ELM_VALID_CHARS` applied through `re.match`: the pattern
`[a-zA-Z0-9 \n\r]*` matched at the start of the string.  A star of a
character class always matches (greedily, possibly the empty prefix), so the
match object is the greedy run's length — never `None`. -/
def elmValidMatch (cmd : String) : Option Nat :=
  some (cmd.data.takeWhile (fun c =>
    ('a' ≤ c && c ≤ 'z') || ('A' ≤ c && c ≤ 'Z') || ('0' ≤ c && c ≤ '9') ||
      c = ' ' || c = '\n' || c = '\r')).length

/-- `Elm.validate` (`src/elm/elm.py:1279-1282`): `False` iff
`re.match(ELM_VALID_CHARS, cmd)` is `None`. -/
def validate (cmd : String) : Bool :=
  match elmValidMatch cmd with
  | none => false
  | some _ => true

/-! ## Dictionary lemmas -/

theorem cget_cset_self (c : Counters) (k : String) (v : CVal) :
    cget (cset c k v) k = some v := by
  induction c with
  | nil => simp [cset, cget]
  | cons kv rest ih =>
    by_cases h : kv.1 = k <;> simp [cset, cget, h, ih]

theorem cget_cset_ne (c : Counters) (k k' : String) (v : CVal) (h : k' ≠ k) :
    cget (cset c k' v) k = cget c k := by
  induction c with
  | nil => simp [cset, cget, h]
  | cons kv rest ih =>
    by_cases h2 : kv.1 = k' <;> by_cases h3 : kv.1 = k <;>
      simp_all [cset, cget]

theorem cget_eq_none_iff (c : Counters) (k : String) :
    cget c k = none ↔ ∀ v, (k, v) ∉ c := by
  induction c with
  | nil => simp [cget]
  | cons kv rest ih =>
    obtain ⟨k1, v1⟩ := kv
    by_cases h : k1 = k
    · subst h
      simp only [cget, if_pos rfl]
      constructor
      · intro hv; exact Option.noConfusion hv
      · intro hall; exact absurd (List.mem_cons_self _ _) (hall v1)
    · simp only [cget, if_neg h, ih]
      constructor
      · intro hall v hv
        rcases List.mem_cons.mp hv with h1 | h1
        · exact h (congrArg Prod.fst h1).symm
        · exact hall v h1
      · intro hall v hv; exact hall v (List.mem_cons_of_mem _ hv)

theorem cget_filter_out (c : Counters) (p : String × CVal → Bool) (k : String)
    (h : ∀ v, p (k, v) = false) : cget (c.filter p) k = none := by
  induction c with
  | nil => simp [cget]
  | cons kv rest ih =>
    obtain ⟨k1, v1⟩ := kv
    by_cases h1 : k1 = k
    · subst h1; simp [List.filter, h v1, ih]
    · simp only [List.filter]
      cases hp : p (k1, v1) <;> simp [cget, h1, ih, hp]

theorem cget_foldl_cset_not_mem (ps : Counters) (c : Counters) (k : String)
    (h : ∀ v, (k, v) ∉ ps) :
    cget (ps.foldl (fun c kv => cset c kv.1 kv.2) c) k = cget c k := by
  induction ps generalizing c with
  | nil => rfl
  | cons kv rest ih =>
    obtain ⟨k1, v1⟩ := kv
    have hk1 : k1 ≠ k := fun he => h v1 (by simp [he])
    rw [List.foldl_cons, ih _ (fun v hv => h v (List.mem_cons_of_mem _ hv))]
    exact cget_cset_ne c k k1 v1 hk1

theorem cget_foldl_cset_mem (ps : Counters) (c : Counters) (k : String) (v : CVal)
    (hnd : (ps.map Prod.fst).Nodup) (h : cget ps k = some v) :
    cget (ps.foldl (fun c kv => cset c kv.1 kv.2) c) k = some v := by
  induction ps generalizing c with
  | nil => simp [cget] at h
  | cons kv rest ih =>
    obtain ⟨k1, v1⟩ := kv
    simp only [List.map_cons, List.nodup_cons] at hnd
    by_cases h1 : k1 = k
    · subst h1
      simp [cget] at h
      subst h
      rw [List.foldl_cons]
      have : ∀ w, (k1, w) ∉ rest := by
        intro w hw
        exact hnd.1 (List.mem_map.mpr ⟨(k1, w), hw, rfl⟩)
      rw [cget_foldl_cset_not_mem rest _ k1 this]
      exact cget_cset_self c k1 v1
    · simp only [cget, if_neg h1] at h
      rw [List.foldl_cons]
      exact ih _ hnd.2 h

theorem alookup_mem {α : Type} (m : List (String × α)) (k : String) (v : α)
    (h : alookup m k = some v) : (k, v) ∈ m := by
  induction m with
  | nil => simp [alookup] at h
  | cons kv rest ih =>
    obtain ⟨k1, v1⟩ := kv
    by_cases h1 : k1 = k
    · subst h1
      simp [alookup] at h
      simp [h]
    · simp only [alookup, if_neg h1] at h
      exact List.mem_cons_of_mem _ (ih h)

theorem tlookup_not_mem (t : TaskTable) (h : Option CVal)
    (hnm : ∀ v, (h, v) ∉ t) : tlookup t h = none := by
  induction t with
  | nil => rfl
  | cons kv rest ih =>
    obtain ⟨k1, v1⟩ := kv
    have hne : k1 ≠ h := fun he => hnm v1 (by simp [he])
    simp only [tlookup, if_neg hne]
    exact ih (fun v hv => hnm v (List.mem_cons_of_mem _ hv))

theorem tlookup_tdel_self (t : TaskTable) (h : Option CVal)
    (hnd : (t.map Prod.fst).Nodup) : tlookup (tdel t h) h = none := by
  induction t with
  | nil => rfl
  | cons kv rest ih =>
    obtain ⟨k1, v1⟩ := kv
    simp only [List.map_cons, List.nodup_cons] at hnd
    by_cases h1 : k1 = h
    · subst h1
      simp only [tdel, if_pos rfl]
      exact tlookup_not_mem rest k1
        (fun v hv => hnd.1 (List.mem_map.mpr ⟨(k1, v), hv, rfl⟩))
    · simp only [tdel, if_neg h1, tlookup, if_neg h1]
      exact ih hnd.2

/-! ## Character facts -/

theorem char_le_toNat {a b : Char} (h : a ≤ b) : a.toNat ≤ b.toNat := by
  rw [Char.le_def, UInt32.le_def, BitVec.le_def] at h
  exact h

theorem hexVal_lt (c : Char) : hexVal c < 16 := by
  unfold hexVal
  split
  · next h =>
    have h1 := char_le_toNat h.1
    have h2 := char_le_toNat h.2
    have e0 : ('0' : Char).toNat = 48 := rfl
    have e9 : ('9' : Char).toNat = 57 := rfl
    omega
  · split
    · next h =>
      have h1 := char_le_toNat h.1
      have h2 := char_le_toNat h.2
      have ea : ('a' : Char).toNat = 97 := rfl
      have ef : ('f' : Char).toNat = 102 := rfl
      omega
    · split
      · next h =>
        have h1 := char_le_toNat h.1
        have h2 := char_le_toNat h.2
        have ea : ('A' : Char).toNat = 65 := rfl
        have ef : ('F' : Char).toNat = 70 := rfl
        omega
      · omega

theorem hex_not_ws (c : Char) (h : isHexDigitC c = true) : isPyWs c = false := by
  by_contra hne
  have hws : isPyWs c = true := by revert hne; cases isPyWs c <;> simp
  simp only [isPyWs, Bool.or_eq_true, decide_eq_true_eq] at hws
  rcases hws with ((((h1 | h1) | h1) | h1) | h1) | h1 <;> subst h1 <;>
    exact absurd h (by decide)

theorem pyIntHex_all_hex (l : List Char) (h1 : l ≠ [])
    (h2 : ∀ c ∈ l, isHexDigitC c = true) :
    pyIntHex ⟨l⟩ = some (l.foldl (fun a c => 16 * a + hexVal c) 0) := by
  have hd : l.dropWhile isPyWs = l := by
    cases l with
    | nil => rfl
    | cons c rest =>
      rw [List.dropWhile_cons]
      simp [hex_not_ws c (h2 c (by simp))]
  have hr : l.reverse.dropWhile isPyWs = l.reverse := by
    cases hrev : l.reverse with
    | nil => rfl
    | cons c rest =>
      rw [List.dropWhile_cons]
      have hc : c ∈ l := by
        rw [← List.mem_reverse, hrev]; simp
      simp [hex_not_ws c (h2 c hc)]
  have hall : l.all isHexDigitC = true := List.all_eq_true.mpr h2
  simp only [pyIntHex, hd, hr, List.reverse_reverse, hall, h1]
  simp [h1]

/-! ## Claim theorems: reset, validation, protocol violations -/

/-- **C4** (confirmed).  `Elm.reset` clears every counter whose key carries
the `cmd_` command-counter prefix (unless the presets or the fixed
`cmd_set_header` default re-create it), restores the fixed preset
configuration keys to their default values (`ELM_PIDS_A = 0`,
`ELM_MIDS_A = 0`, `cmd_set_header = ECU_ADDR_E`, then the `presets`
overlay), and destroys all active tasks: the per-header task table becomes
empty. -/
theorem C4_reset_law (s : ElmState) (hnd : (s.presets.map Prod.fst).Nodup) :
    (∀ k, strHasPfx "cmd_" k = true → cget s.presets k = none →
      k ≠ "cmd_set_header" → cget (resetElm s).counters k = none) ∧
    (∀ k v, cget s.presets k = some v → cget (resetElm s).counters k = some v) ∧
    (cget s.presets "cmd_set_header" = none →
      cget (resetElm s).counters "cmd_set_header" = some (.str ECU_ADDR_E)) ∧
    (cget s.presets "ELM_PIDS_A" = none →
      cget (resetElm s).counters "ELM_PIDS_A" = some (.int 0)) ∧
    (cget s.presets "ELM_MIDS_A" = none →
      cget (resetElm s).counters "ELM_MIDS_A" = some (.int 0)) ∧
    (resetElm s).tasks = [] := by
  refine ⟨?_, ?_, ?_, ?_, ?_, rfl⟩
  · intro k hk hp hne
    unfold resetElm
    rw [cget_foldl_cset_not_mem _ _ _ ((cget_eq_none_iff _ _).mp hp)]
    have hne1 : k ≠ "ELM_PIDS_A" := by rintro rfl; exact absurd hk (by decide)
    have hne2 : k ≠ "ELM_MIDS_A" := by rintro rfl; exact absurd hk (by decide)
    rw [cget_cset_ne _ _ _ _ (Ne.symm hne), cget_cset_ne _ _ _ _ (Ne.symm hne2),
      cget_cset_ne _ _ _ _ (Ne.symm hne1)]
    exact cget_filter_out _ _ _ (fun v => by simp [hk])
  · intro k v hp
    unfold resetElm
    exact cget_foldl_cset_mem _ _ _ _ hnd hp
  · intro hp
    unfold resetElm
    rw [cget_foldl_cset_not_mem _ _ _ ((cget_eq_none_iff _ _).mp hp)]
    exact cget_cset_self _ _ _
  · intro hp
    unfold resetElm
    rw [cget_foldl_cset_not_mem _ _ _ ((cget_eq_none_iff _ _).mp hp)]
    rw [cget_cset_ne _ _ _ _ (by decide), cget_cset_ne _ _ _ _ (by decide)]
    exact cget_cset_self _ _ _
  · intro hp
    unfold resetElm
    rw [cget_foldl_cset_not_mem _ _ _ ((cget_eq_none_iff _ _).mp hp)]
    rw [cget_cset_ne _ _ _ _ (by decide)]
    exact cget_cset_self _ _ _

/-- Concrete engine state exercising `C4_reset_law`: a `cmd_`-prefixed
counter, a hit counter, an active task and one preset. -/
def c4State : ElmState :=
  ⟨[("cmd_caf", .bool false), ("0100", .int 7), ("commands", .int 9)],
   [(some (.str "7E0"), mlInit)], "default", [], [], [], [], [("cmd_echo", .int 1)]⟩

theorem C4_reset_law_witness :
    ((c4State.presets.map Prod.fst).Nodup ∧ strHasPfx "cmd_" "cmd_caf" = true ∧
      cget c4State.presets "cmd_caf" = none) ∧
    cget (resetElm c4State).counters "cmd_caf" = none ∧
    cget (resetElm c4State).counters "cmd_echo" = some (.int 1) ∧
    cget (resetElm c4State).counters "cmd_set_header" = some (.str ECU_ADDR_E) ∧
    (resetElm c4State).tasks = [] := by
  have h := C4_reset_law c4State (by decide)
  exact ⟨⟨by decide, by decide, by decide⟩,
    h.1 "cmd_caf" (by decide) (by decide) (by decide),
    h.2.1 "cmd_echo" (.int 1) (by decide),
    h.2.2.1 (by decide),
    h.2.2.2.2.2⟩

/-- **C10** (confirmed).  `Elm.validate` applies `re.match` with the pattern
`ELM_VALID_CHARS = "[a-zA-Z0-9 \n\r]*"`; a star over a character class
matches at position 0 of every string (possibly as a zero-length match), and
any `Match` object — zero-length included — is truthy, so `validate` returns
`True` on every input: the `Elm.run` loop's invalid-request branch (the
`else` of `if self.validate(self.cmd)`) is unreachable, and every line read
from the transport, including lines with characters outside the allowed ELM
character set, reaches `handle_request`. -/
theorem C10_validate_always_true (cmd : String) : validate cmd = true := rfl

/-- **C9** (confirmed).  (1) `Multiline.run` on a Consecutive Frame whose
index differs from the expected next index (`self.frame`), or that carries a
length field, or that arrives while no collection is in progress
(`self.frame` unset), falls to the final `else` and returns
`Tasks.TASK.ERROR` without touching the state.  (2) `task_action` then takes
the `TERMINATE` path: it accounts the task and removes the header from the
task table, returning the error triple (`None` response, no continuation).
(3) With the header absent from the task table, a following Single Frame
request on that header goes straight to catalog resolution (`resolveCmd`),
unaffected by the aborted exchange. -/
theorem C9_cf_protocol_violation :
    (∀ (cfc : Option CVal) (s : MLState) (cmd : String) (l : Option Nat) (f : Nat),
      0 < f → s.frame ≠ some f ∨ l ≠ none →
      Multiline_run cfc s cmd l (some f) = (s, .error, 0)) ∧
    (∀ (es : ElmState) (h : Option CVal) (cmd : String) (l f : Option Nat)
      (ms : MLState) (c0 : Counters),
      (es.tasks.map Prod.fst).Nodup →
      tlookup es.tasks h = some ms →
      (Multiline_run (cget es.counters "cmd_cfc") ms cmd l f).2.1 = .error →
      cIncrInit es.counters "" = some c0 →
      taskActionML es h cmd l f =
        some ({ es with counters := c0, tasks := tdel es.tasks h }, none, false, none,
          (Multiline_run (cget es.counters "cmd_cfc") ms cmd l f).2.2) ∧
      tlookup (tdel es.tasks h) h = none) ∧
    (∀ (es : ElmState) (fw : ForwardResult) (rnd : Nat) (h : Option CVal) (cmd : String),
      tlookup es.tasks h = none →
      afterPCI es fw rnd h cmd none none = resolveCmd es fw rnd h 0 cmd) := by
  refine ⟨?_, ?_, ?_⟩
  · intro cfc s cmd l f hf hbad
    cases f with
    | zero => omega
    | succ f' =>
      simp only [Multiline_run]
      rw [if_neg]
      rintro ⟨h1, h2⟩
      rcases hbad with hb | hb
      · exact hb h1
      · exact hb h2
  · intro es h cmd l f ms c0 hnd hlk herr hinc
    constructor
    · simp only [taskActionML, hlk]
      rcases hM : Multiline_run (cget es.counters "cmd_cfc") ms cmd l f with ⟨ms', res, n⟩
      rw [hM] at herr
      simp only at herr
      subst herr
      simp [hinc]
    · exact tlookup_tdel_self es.tasks h hnd
  · intro es fw rnd h cmd hlk
    simp [afterPCI, hlk]

/-- Concrete engine state with one active `Multiline` collection (expecting
frame `2`) on header `7E0`, for the `C9` witness. -/
def c9State : ElmState :=
  ⟨[("cmd_caf", .bool false), ("cmd_set_header", .str "7E0")],
   [(some (.str "7E0"), ⟨some 2, some 9, "AABBCCDD", 30, 32⟩)], "default",
   [("default", []), ("AT", [])], [], [], [], []⟩

/-- The engine state after the aborted exchange of the `C9` witness: the
task table emptied, the accounting counter `""` created. -/
def c9After : ElmState :=
  { c9State with counters := c9State.counters ++ [("", .int 1)], tasks := [] }

theorem C9_cf_protocol_violation_witness :
    (0 < 3 ∧ (⟨some 2, some 9, "AABBCCDD", 30, 32⟩ : MLState).frame ≠ some 3) ∧
    Multiline_run none ⟨some 2, some 9, "AABBCCDD", 30, 32⟩ "5566" none (some 3) =
      (⟨some 2, some 9, "AABBCCDD", 30, 32⟩, .error, 0) ∧
    taskActionML c9State (some (.str "7E0")) "5566" none (some 3) =
      some (c9After, none, false, none, 0) ∧
    tlookup (tdel c9State.tasks (some (.str "7E0"))) (some (.str "7E0")) = none ∧
    afterPCI { c9State with tasks := [] } .noConn 0 (some (.str "7E0")) "0100" none none =
      resolveCmd { c9State with tasks := [] } .noConn 0 (some (.str "7E0")) 0 "0100" := by
  have h := C9_cf_protocol_violation
  refine ⟨⟨by decide, by decide⟩, ?_, ?_, ?_, ?_⟩
  · exact h.1 none ⟨some 2, some 9, "AABBCCDD", 30, 32⟩ "5566" none 3 (by decide)
      (Or.inl (by decide))
  · have h2 := (h.2.1 c9State (some (.str "7E0")) "5566" none (some 3)
      ⟨some 2, some 9, "AABBCCDD", 30, 32⟩ (c9State.counters ++ [("", .int 1)])
      (by decide) (by decide) (by decide) (by decide)).1
    rw [h2]
    rfl
  · exact (h.2.1 c9State (some (.str "7E0")) "5566" none (some 3)
      ⟨some 2, some 9, "AABBCCDD", 30, 32⟩ (c9State.counters ++ [("", .int 1)])
      (by decide) (by decide) (by decide) (by decide)).2
  · exact h.2.2 { c9State with tasks := [] } .noConn 0 (some (.str "7E0")) "0100" (by decide)

theorem length_dropWhile_le' (p : Char → Bool) (l : List Char) :
    (l.dropWhile p).length ≤ l.length := by
  induction l with
  | nil => simp
  | cons c rest ih =>
    rw [List.dropWhile_cons]
    split
    · exact le_trans ih (by simp)
    · simp

theorem foldl_hex_lt_256 (t : List Char) (h : t.length ≤ 2) :
    t.foldl (fun a c => 16 * a + hexVal c) 0 < 256 := by
  match t with
  | [] => simp
  | [c] =>
    have := hexVal_lt c
    simp only [List.foldl]
    omega
  | [c1, c2] =>
    have := hexVal_lt c1
    have := hexVal_lt c2
    simp only [List.foldl]
    omega
  | _ :: _ :: _ :: _ => simp at h

theorem pyIntHex_lt_256 (s : String) (v : Nat) (h : pyIntHex s = some v)
    (hl : pyLen s ≤ 2) : v < 256 := by
  unfold pyIntHex at h
  simp only at h
  split at h
  · exact Option.noConfusion h
  · split at h
    · have hv := Option.some.inj h
      subst hv
      apply foldl_hex_lt_256
      calc ((s.data.dropWhile isPyWs).reverse.dropWhile isPyWs).reverse.length
          ≤ (s.data.dropWhile isPyWs).length := by
            rw [List.length_reverse]
            calc ((s.data.dropWhile isPyWs).reverse.dropWhile isPyWs).length
                ≤ (s.data.dropWhile isPyWs).reverse.length := length_dropWhile_le' _ _
              _ = (s.data.dropWhile isPyWs).length := List.length_reverse _
        _ ≤ s.data.length := length_dropWhile_le' _ _
        _ ≤ 2 := hl
    · exact Option.noConfusion h

/-- **C3** (corrected).  With the PCI-byte convention enabled (`cmd_caf`
present and falsy) and a non-`AT` command whose first two characters are hex
digits, `handle_request` parses those two digits as a size: sizes `0–15`
slice the payload to `size·2` hex digits and fail deterministically (empty
response) when the declared length exceeds the available payload — but an
empty payload after the size prefix always fails first (`'Missing data'`),
even when the declared length is `0` (the correction); size `16` marks a
First Frame with frame index `0`, its total byte length read from the next
byte pair (hence below `256`, a fortiori expressible in 12 bits); any size
above `32` yields a Consecutive Frame of index `size − 32`.  The last
conjunct shows the deterministic failure through `handle_request` itself:
an `.err` parse yields the empty-string response with no state change
beyond the command counter. -/
theorem C3_pci_length_parsing (cmd : String) (hlen : 2 ≤ pyLen cmd)
    (hhex : ∀ c ∈ (pyTake cmd 2).data, isHexDigitC c = true) :
    ∃ sz, pyIntHex (pyTake cmd 2) = some sz ∧ sz < 256 ∧
      (pyDrop cmd 2 = "" → parsePCI cmd = .err) ∧
      (pyDrop cmd 2 ≠ "" → sz < 16 → pyLen (pyDrop cmd 2) < sz * 2 →
        parsePCI cmd = .err) ∧
      (pyDrop cmd 2 ≠ "" → sz < 16 → sz * 2 ≤ pyLen (pyDrop cmd 2) →
        parsePCI cmd = .ok (pyTake (pyDrop cmd 2) (sz * 2)) (some sz) none) ∧
      (pyDrop cmd 2 ≠ "" → sz = 16 → ∀ L, pyIntHex (pySlice cmd 2 4) = some L →
        parsePCI cmd = .ok (pyDrop cmd 4) (some L) (some 0) ∧ L < 256) ∧
      (pyDrop cmd 2 ≠ "" → 32 < sz →
        parsePCI cmd = .ok (pyDrop cmd 2) none (some (sz - 32))) ∧
      (∀ c v, cget c "cmd_caf" = some v → v.truthy = false → pyTake cmd 2 ≠ "AT" →
        pciEnabled c cmd = true) ∧
      (∀ (es : ElmState) (fw : ForwardResult) (rnd : Nat) (c1 : Counters),
        cIncrInit es.counters "commands" = some c1 →
        (alookup es.obdMessage es.scenario).isSome →
        optCTruthy (cget c1 "cmd_fcsm") = false →
        pyUpper (stripSpaces cmd) = cmd →
        pciEnabled c1 cmd = true →
        parsePCI cmd = .err →
        handle_request es fw rnd cmd =
          some ({ es with counters := c1 },
            ⟨cget c1 "cmd_set_header", cmd, some "", 0, false⟩)) := by
  have hlen' : 2 ≤ cmd.data.length := hlen
  have hne : (pyTake cmd 2).data ≠ [] := by
    simp only [pyTake]
    intro he
    have : (cmd.data.take 2).length = 0 := by rw [he]; rfl
    simp only [List.length_take] at this
    omega
  obtain ⟨sz, hsz⟩ : ∃ sz, pyIntHex (pyTake cmd 2) = some sz :=
    ⟨_, pyIntHex_all_hex (pyTake cmd 2).data hne hhex⟩
  have hsz256 : sz < 256 :=
    pyIntHex_lt_256 _ _ hsz
      (by rw [show pyLen (pyTake cmd 2) = (cmd.data.take 2).length from rfl,
            List.length_take]; omega)
  refine ⟨sz, hsz, hsz256, ?_, ?_, ?_, ?_, ?_, ?_, ?_⟩
  · intro hp
    simp [parsePCI, hsz, hp]
  · intro hp hlt16 hshort
    simp [parsePCI, hsz, hp, hlt16, hshort]
  · intro hp hlt16 hok
    simp [parsePCI, hsz, hp, hlt16, Nat.not_lt.mpr hok]
  · intro hp h16 L hL
    subst h16
    refine ⟨?_, pyIntHex_lt_256 _ _ hL
      (by rw [show pyLen (pySlice cmd 2 4) = ((cmd.data.drop 2).take 2).length from rfl,
            List.length_take]; omega)⟩
    simp [parsePCI, hsz, hp, hL]
  · intro hp h32
    have h1 : ¬ sz < 16 := by omega
    have h2 : sz ≠ 16 := by omega
    simp [parsePCI, hsz, hp, h1, h2, h32]
  · intro c v hc hv hAT
    simp only [pciEnabled, hc, hv]
    have : is_hex_sp (pyTake cmd 2) = true :=
      List.all_eq_true.mpr (fun c hc => by simp [hhex c hc])
    simp [hAT, this]
  · intro es fw rnd c1 hinc hsc hfcsm hid hpci herr
    obtain ⟨sd, hsd⟩ := Option.isSome_iff_exists.mp hsc
    simp [handle_request, hinc, hid, hsd, hfcsm, hpci, herr]

/-- Engine state with the PCI-byte convention enabled (`cmd_caf` present and
false) and an empty catalog. -/
def c3State : ElmState :=
  ⟨[("cmd_caf", .bool false)], [], "default", [("default", []), ("AT", [])], [], [], [], []⟩

/-- **C3 counterexample.**  For the request `"00"` (size digits `00`, empty
payload) the declared length `0` does not exceed the available payload, so
the claim's slicing clause would continue catalog resolution with the sliced
(empty) payload; instead the code's `'Missing data'` check fires first:
`parsePCI` errors and `handle_request` returns the empty-string error
response with the request data still the unsliced `"00"`. -/
theorem C3_cx_empty_payload :
    parsePCI "00" = .err ∧ ¬ (pyLen (pyDrop "00" 2) < 0 * 2) ∧
    handle_request c3State .noConn 0 "00" =
      some ({ c3State with counters := c3State.counters ++ [("commands", .int 1)] },
        ⟨none, "00", some "", 0, false⟩) := by
  refine ⟨by decide, by decide, rfl⟩

theorem C3_pci_length_parsing_witness :
    (2 ≤ pyLen "0322F190" ∧ ∀ c ∈ (pyTake "0322F190" 2).data, isHexDigitC c = true) ∧
    parsePCI "0322F190" = .ok "22F190" (some 3) none := by
  refine ⟨⟨by decide, by decide⟩, ?_⟩
  obtain ⟨sz, hsz, -, -, -, hok, -, -, -, -⟩ :=
    C3_pci_length_parsing "0322F190" (by decide) (by decide)
  have hsz3 : sz = 3 := by
    have h3 : pyIntHex (pyTake "0322F190" 2) = some 3 := by decide
    rw [h3] at hsz
    exact (Option.some.inj hsz).symm
  subst hsz3
  rw [hok (by decide) (by decide) (by decide)]
  decide

/-! ## The first-come-header mode (C8) -/

/-- The counter updates performed by the `cmd_fcsm` block of
`handle_request` (lines 1391-1400): ephemeral header, `cmd_caf = False`,
`cmd_use_header = True`. -/
def fcsmCounters (c1 : Counters) (h : String) : Counters :=
  cset (cset (cset c1 "cmd_set_header" (.str h)) "cmd_caf" (.bool false))
    "cmd_use_header" (.bool true)

/-- Engine state with the experimental first-come-header mode enabled. -/
def c8State : ElmState :=
  ⟨[("cmd_fcsm", .int 1)], [], "default", [("default", []), ("AT", [])], [], [], [], []⟩

/-- **C8 counterexample.**  The claim says the first-come-header mode
«disables the length-prefix (PCI byte) convention for this request, so the
remainder of the command is not parsed for a size prefix».  In the code,
the block sets `cmd_caf = False`, and the length-prefix block runs exactly
when `cmd_caf` is present and falsy — so it becomes ENABLED: for the request
`7E00322F190`, after stripping the header `7E0`, the remainder `0322F190`
IS parsed for a size prefix (`03`), leaving request data `22F190` instead of
the unparsed `0322F190`. -/
theorem C8_cx_first_come_header :
    (handle_request c8State .noConn 0 "7E00322F190").map
      (fun r => (r.2.reqData, cget r.1.counters "cmd_caf",
        cget r.1.counters "cmd_use_header", cget r.1.counters "cmd_set_header")) =
      some ("22F190", some (.bool false), some (.bool true), some (.str "7E0")) ∧
    ("22F190" : String) ≠ "0322F190" := ⟨rfl, by decide⟩

/-- **C8** (corrected).  With `cmd_fcsm` truthy on a non-`AT` request whose
first 3 characters are hex, `handle_request` strips those characters as an
ephemeral header (stored into `cmd_set_header`), forces header echo on
(`cmd_use_header = True`) and sets `cmd_caf = False`; since the length-prefix
block is guarded by «`cmd_caf` present and falsy», this ENABLES the PCI-byte
convention for the request, and the remainder is parsed for a size prefix
whenever its first two characters are hex and not `AT` — the opposite of the
claim's «disables … not parsed» clause. -/
theorem C8_fcsm_enables_pci (es : ElmState) (fw : ForwardResult) (rnd : Nat)
    (cmd : String) (c1 : Counters)
    (hinc : cIncrInit es.counters "commands" = some c1)
    (hsc : (alookup es.obdMessage es.scenario).isSome)
    (hid : pyUpper (stripSpaces cmd) = cmd)
    (hf : optCTruthy (cget c1 "cmd_fcsm") = true)
    (hAT : pyTake cmd 2 ≠ "AT")
    (hhx : is_hex_sp (pyTake cmd 3) = true) :
    cget (fcsmCounters c1 (pyTake cmd 3)) "cmd_set_header" =
      some (.str (pyTake cmd 3)) ∧
    cget (fcsmCounters c1 (pyTake cmd 3)) "cmd_caf" = some (.bool false) ∧
    cget (fcsmCounters c1 (pyTake cmd 3)) "cmd_use_header" = some (.bool true) ∧
    (pyTake (pyDrop cmd 3) 2 ≠ "AT" → is_hex_sp (pyTake (pyDrop cmd 3) 2) = true →
      pciEnabled (fcsmCounters c1 (pyTake cmd 3)) (pyDrop cmd 3) = true) ∧
    handle_request es fw rnd cmd =
      (if pciEnabled (fcsmCounters c1 (pyTake cmd 3)) (pyDrop cmd 3) then
        match parsePCI (pyDrop cmd 3) with
        | .err => some ({ es with counters := fcsmCounters c1 (pyTake cmd 3) },
            ⟨some (.str (pyTake cmd 3)), pyDrop cmd 3, some "", 0, false⟩)
        | .ok c3 l f => afterPCI { es with counters := fcsmCounters c1 (pyTake cmd 3) }
            fw rnd (some (.str (pyTake cmd 3))) c3 l f
      else afterPCI { es with counters := fcsmCounters c1 (pyTake cmd 3) } fw rnd
        (some (.str (pyTake cmd 3))) (pyDrop cmd 3) none none) := by
  refine ⟨?_, ?_, ?_, ?_, ?_⟩
  · unfold fcsmCounters
    rw [cget_cset_ne _ _ _ _ (by decide), cget_cset_ne _ _ _ _ (by decide)]
    exact cget_cset_self _ _ _
  · unfold fcsmCounters
    rw [cget_cset_ne _ _ _ _ (by decide)]
    exact cget_cset_self _ _ _
  · exact cget_cset_self _ _ _
  · intro h1 h2
    have hcaf : cget (fcsmCounters c1 (pyTake cmd 3)) "cmd_caf" = some (.bool false) := by
      unfold fcsmCounters
      rw [cget_cset_ne _ _ _ _ (by decide)]
      exact cget_cset_self _ _ _
    simp [pciEnabled, hcaf, CVal.truthy, h1, h2]
  · obtain ⟨sd, hsd⟩ := Option.isSome_iff_exists.mp hsc
    simp only [handle_request, hinc, hid, hsd, fcsmCounters]
    simp [hf, hAT, hhx]

theorem C8_fcsm_enables_pci_witness :
    (cIncrInit c8State.counters "commands" =
        some [("cmd_fcsm", .int 1), ("commands", .int 1)] ∧
      (alookup c8State.obdMessage c8State.scenario).isSome ∧
      pyUpper (stripSpaces "7E00322F190") = "7E00322F190" ∧
      optCTruthy (cget [("cmd_fcsm", CVal.int 1), ("commands", CVal.int 1)] "cmd_fcsm") = true ∧
      pyTake "7E00322F190" 2 ≠ "AT" ∧ is_hex_sp (pyTake "7E00322F190" 3) = true) ∧
    cget (fcsmCounters [("cmd_fcsm", CVal.int 1), ("commands", CVal.int 1)]
      (pyTake "7E00322F190" 3)) "cmd_caf" = some (.bool false) ∧
    pciEnabled (fcsmCounters [("cmd_fcsm", CVal.int 1), ("commands", CVal.int 1)]
      (pyTake "7E00322F190" 3)) (pyDrop "7E00322F190" 3) = true := by
  have h := C8_fcsm_enables_pci c8State .noConn 0 "7E00322F190"
    [("cmd_fcsm", .int 1), ("commands", .int 1)]
    (by decide) (by decide) (by decide) (by decide) (by decide) (by decide)
  exact ⟨⟨by decide, by decide, by decide, by decide, by decide, by decide⟩,
    h.2.1, h.2.2.2.1 (by decide) (by decide)⟩

/-! ## Unknown commands (C6, C7) -/

theorem self_ne_append (s t : String) (h : t.data ≠ []) : s ≠ s ++ t := by
  intro he
  have hlen : pyLen s = pyLen (s ++ t) := by rw [← he]
  rw [pyLen_append] at hlen
  have hl : pyLen t = 0 := by omega
  exact h (List.length_eq_zero.mp hl)

theorem cget_huCounters (c1 : Counters) (fw : ForwardResult) (key : String) :
    cget (huCounters c1 fw key) key = cget c1 key := by
  unfold huCounters
  have hkey : key ≠ key ++ "_R" := self_ne_append _ _ (by decide)
  cases fwNotFalse fw <;> simp [cget_cset_ne _ _ _ _ (Ne.symm hkey)]

/-- **C7** (corrected).  The per-text unknown-command counter
`unknown_<repr(cmd)>` is incremented on EVERY occurrence of the command (not
once per distinct text): when it held `n`, it holds `n + 1` afterwards.  The
diagnostic escalation (`logging.warning('Missing data in dictionary: …')`)
requires the counter to equal `1`, so it fires at most on the first
occurrence of the text; from the second occurrence on it is silent. -/
theorem C7_unknown_counter (c : Counters) (fw : ForwardResult) (cmd : String) :
    (cget c ("unknown_" ++ pyRepr cmd) = none →
      ∃ c' resp esc, handleUnknown c fw cmd = some (c', resp, esc) ∧
        cget c' ("unknown_" ++ pyRepr cmd) = some (.int 1)) ∧
    (∀ n : Int, cget c ("unknown_" ++ pyRepr cmd) = some (.int n) →
      ∃ c' resp esc, handleUnknown c fw cmd = some (c', resp, esc) ∧
        cget c' ("unknown_" ++ pyRepr cmd) = some (.int (n + 1)) ∧
        (esc = true → n = 0) ∧ (1 ≤ n → esc = false)) := by
  constructor
  · intro h0
    have hinc : cIncrInit c ("unknown_" ++ pyRepr cmd) =
        some (cset c ("unknown_" ++ pyRepr cmd) (.int 1)) := by
      simp [cIncrInit, h0]
    have hv : cget (cset c ("unknown_" ++ pyRepr cmd) (.int 1))
        ("unknown_" ++ pyRepr cmd) = some (.int 1) := cget_cset_self _ _ _
    by_cases hc : cmd = ""
    · subst hc
      refine ⟨_, _, _, by simp [handleUnknown, hinc]; and_intros <;> rfl, hv⟩
    · by_cases hx : len_hex cmd
      · refine ⟨_, _, _, by simp [handleUnknown, hinc, hc, hx]; and_intros <;> rfl, ?_⟩
        rw [cget_huCounters]; exact hv
      · refine ⟨_, _, _, by simp [handleUnknown, hinc, hc, hx]; and_intros <;> rfl, ?_⟩
        rw [cget_huCounters]; exact hv
  · intro n hn
    have hinc : cIncrInit c ("unknown_" ++ pyRepr cmd) =
        some (cset c ("unknown_" ++ pyRepr cmd) (.int (n + 1))) := by
      simp [cIncrInit, hn]
    have hv : cget (cset c ("unknown_" ++ pyRepr cmd) (.int (n + 1)))
        ("unknown_" ++ pyRepr cmd) = some (.int (n + 1)) := cget_cset_self _ _ _
    have hv2 : cget (huCounters (cset c ("unknown_" ++ pyRepr cmd) (.int (n + 1))) fw
        ("unknown_" ++ pyRepr cmd)) ("unknown_" ++ pyRepr cmd) = some (.int (n + 1)) := by
      rw [cget_huCounters]; exact hv
    have hesc1 : huEscalate (huCounters (cset c ("unknown_" ++ pyRepr cmd) (.int (n + 1))) fw
        ("unknown_" ++ pyRepr cmd)) fw ("unknown_" ++ pyRepr cmd) = true → n = 0 := by
      intro he
      unfold huEscalate at he
      rw [hv2] at he
      simp only [Bool.and_eq_true] at he
      have := he.2
      simp [CVal.eqInt] at this
      omega
    have hesc2 : 1 ≤ n → huEscalate (huCounters (cset c ("unknown_" ++ pyRepr cmd)
        (.int (n + 1))) fw ("unknown_" ++ pyRepr cmd)) fw ("unknown_" ++ pyRepr cmd) = false := by
      intro h1
      unfold huEscalate
      rw [hv2]
      have : CVal.eqInt (.int (n + 1)) 1 = false := by
        simp [CVal.eqInt]; omega
      simp [this]
    by_cases hc : cmd = ""
    · subst hc
      refine ⟨_, _, _, by simp [handleUnknown, hinc]; and_intros <;> rfl, hv, by simp, by simp⟩
    · by_cases hx : len_hex cmd
      · exact ⟨_, _, _, by simp [handleUnknown, hinc, hc, hx]; rfl,
          hv2, hesc1, hesc2⟩
      · exact ⟨_, _, _, by simp [handleUnknown, hinc, hc, hx]; rfl,
          hv2, hesc1, hesc2⟩

/-- Engine state with empty catalogs: every command is unknown. -/
def c7State : ElmState :=
  ⟨[], [], "default", [("default", []), ("AT", [])], [], [], [], []⟩

/-- **C7 counterexample.**  The claim says the per-text unknown-command
counter «increments once regardless of how many times that same command is
repeated»; processing the same unknown command `0102` twice leaves the
counter at `2`, not `1` — the code increments on every occurrence. -/
theorem C7_cx_counter_every_occurrence :
    ((handle_request c7State .noConn 0 "0102").bind
      (fun r => handle_request r.1 .noConn 0 "0102")).map
        (fun r => cget r.1.counters "unknown_'0102'") = some (some (.int 2)) ∧
    CVal.int 2 ≠ CVal.int 1 := ⟨rfl, by decide⟩

theorem C7_unknown_counter_witness :
    cget [("unknown_'0102'", CVal.int 1)] ("unknown_" ++ pyRepr "0102") =
      some (.int 1) ∧
    (∃ c' resp esc,
      handleUnknown [("unknown_'0102'", CVal.int 1)] (.data "0102FF\r") "0102" =
        some (c', resp, esc) ∧
      cget c' ("unknown_" ++ pyRepr "0102") = some (.int (1 + 1)) ∧
      (esc = true → (1 : Int) = 0) ∧ ((1 : Int) ≤ 1 → esc = false)) :=
  ⟨by decide,
   (C7_unknown_counter [("unknown_'0102'", CVal.int 1)] (.data "0102FF\r") "0102").2 1
     (by decide)⟩

/-- **C6** (confirmed).  For every normalized command that matches no
catalog entry (the scan returns `nomatch`), `handle_request` returns — it
does not raise, so the session continues — a fixed unsupported marker chosen
by the command's syntax: `ST('NO DATA')` when the text parses as raw hex
bytes (`len_hex` truthy), the `"?"` marker (`ELM_R_UNKNOWN`) otherwise.
`ST`/`ELM_R_UNKNOWN` come from the `obd_message` module outside `src/` and
are modeled from the spec (`STmsg`). -/
theorem C6_unknown_marker (es : ElmState) (fw : ForwardResult) (rnd : Nat)
    (cmd : String) (c1 c2 c3 : Counters)
    (hinc : cIncrInit es.counters "commands" = some c1)
    (hsc : (alookup es.obdMessage es.scenario).isSome)
    (hfcsm : optCTruthy (cget c1 "cmd_fcsm") = false)
    (hpci : pciEnabled c1 cmd = false)
    (hid : pyUpper (stripSpaces cmd) = cmd)
    (htask : tlookup es.tasks (cget c1 "cmd_set_header") = none)
    (hscan : scanLoop (cget c1 "cmd_set_header") (hdrTruthy (cget c1 "cmd_set_header"))
        es.answer es.plugins rnd cmd c1 es.sortedOBDMsg = some (c2, .nomatch))
    (hcmd : cmd ≠ "")
    (hunk : cIncrInit c2 ("unknown_" ++ pyRepr cmd) = some c3) :
    ∃ s' esc, handle_request es fw rnd cmd = some (s',
      ⟨cget c1 "cmd_set_header", cmd,
        some (if len_hex cmd then STmsg "NO DATA" else ELM_R_UNKNOWN), 0, esc⟩) := by
  obtain ⟨sd, hsd⟩ := Option.isSome_iff_exists.mp hsc
  simp only [handle_request, hinc, hid, hsd, Option.isNone_some]
  have hfcsmOff : (optCTruthy (cget c1 "cmd_fcsm") = true ∧ pyTake cmd 2 ≠ "AT" ∧
      is_hex_sp (pyTake cmd 3) = true) = False := by
    simp [hfcsm]
  simp only [hfcsmOff, if_false, Bool.false_eq_true]
  simp only [hpci, Bool.false_eq_true, if_false, afterPCI, htask, Option.isNone_none,
    ne_eq, not_true_eq_false, and_false, false_and, if_false, resolveCmd, hscan,
    handleUnknown, hunk]
  by_cases hx : len_hex cmd <;> simp [hcmd, hx]

/-- Engine state with empty catalogs and empty counters, for the `C6`
witness. -/
def c6State : ElmState :=
  ⟨[], [], "default", [("default", []), ("AT", [])], [], [], [], []⟩

theorem C6_unknown_marker_witness :
    (cIncrInit c6State.counters "commands" = some [("commands", .int 1)] ∧
      scanLoop (cget [("commands", CVal.int 1)] "cmd_set_header")
        (hdrTruthy (cget [("commands", CVal.int 1)] "cmd_set_header"))
        c6State.answer c6State.plugins 0 "0102" [("commands", CVal.int 1)]
        c6State.sortedOBDMsg = some ([("commands", CVal.int 1)], .nomatch) ∧
      len_hex "0102" = true) ∧
    (∃ s' esc, handle_request c6State .noConn 0 "0102" = some (s',
      ⟨cget [("commands", CVal.int 1)] "cmd_set_header", "0102",
        some (if len_hex "0102" then STmsg "NO DATA" else ELM_R_UNKNOWN), 0, esc⟩)) :=
  ⟨⟨by decide, by decide, by decide⟩,
   C6_unknown_marker c6State .noConn 0 "0102" [("commands", .int 1)]
     [("commands", .int 1)]
     [("commands", .int 1), ("unknown_'0102'", .int 1)]
     (by decide) (by decide) (by decide) (by decide) (by decide) (by decide)
     (by decide) (by decide) (by decide)⟩

/-! ## Multi-frame reassembly (C1) -/

/-- **C1** (corrected: the code accepts only strictly increasing indices
`1, 2, …, k` with no modular wrap — see the counterexample for the claim's
«1..k (mod 8)» convention).  First conjunct: a First Frame declaring byte
length `L > 0` (and not already carrying `2·L` digits) starts a collection,
and Consecutive Frames with indices `1, 2, …, k` keep returning `INCOMPLETE`
until the concatenated payload first reaches `2·L` hex digits, at which
point — exactly once, on that last frame — `run` returns
`PASSTHROUGH` of the concatenation truncated to exactly `2·L` digits and
resets the collection state (`frame = None`).  Second conjunct: inside
`handle_request`, a task `run` returning a passthrough command destroys the
task (the header leaves the task table after `account_task`) and re-enters
catalog resolution (`resolveCmd`) with the reconstructed command, exactly as
a Single Frame request would. -/
theorem C1_multiline_reassembly :
    (∀ (cfc : Option CVal) (L : Nat) (ffd : String) (cfs : List String),
      0 < L → pyLen ffd < L * 2 →
      (∀ k, k < cfs.length → pyLen ffd + sumLens (cfs.take k) < L * 2) →
      cfs ≠ [] → L * 2 ≤ pyLen ffd + sumLens cfs →
      ∃ s1 n1 sfin,
        Multiline_run cfc mlInit ffd (some L) (some 0) = (s1, .incomplete, n1) ∧
        mlFeedCF cfc s1 1 cfs =
          (sfin, List.replicate (cfs.length - 1) .incomplete ++
                 [.passthrough (pyTake (ffd ++ strConcat cfs) (L * 2))]) ∧
        sfin.frame = none) ∧
    (∀ (es : ElmState) (fw : ForwardResult) (rnd : Nat) (h : Option CVal)
      (cmd pc : String) (l f : Option Nat) (ms ms' : MLState) (n : Nat)
      (c0 : Counters),
      tlookup es.tasks h = some ms →
      len_hex cmd = true →
      Multiline_run (cget es.counters "cmd_cfc") ms cmd l f = (ms', .passthrough pc, n) →
      cIncrInit es.counters "" = some c0 →
      afterPCI es fw rnd h cmd l f =
        resolveCmd { es with counters := c0, tasks := tdel es.tasks h } fw rnd h n pc) := by
  constructor
  · intro cfc L ffd cfs hL hff hmid hne hfull
    obtain ⟨s1, n1, hrun, hcol⟩ := ml_ff_step cfc ffd L hL hff
    obtain ⟨sfin, hfeed, hfr⟩ := mlFeedCF_spec cfc L cfs s1 0 ffd hcol hmid hne hfull
    exact ⟨s1, n1, sfin, hrun, hfeed, hfr⟩
  · intro es fw rnd h cmd pc l f ms ms' n c0 hlk hhex hM hinc
    simp only [afterPCI, hlk, Option.isNone_some, Bool.false_eq_true, false_and, if_false,
      hhex, if_true, taskActionML, hM, hinc]

/-- The claim's «1..k (mod 8)» Consecutive-Frame index sequence, for a First
Frame of declared length `9` followed by eight 1-byte Consecutive Frames:
the eighth frame's index is `8 % 8 = 0`. -/
def c1ModFrames : List (String × Option Nat × Option Nat) :=
  [("00", some 9, some 0),
   ("11", none, some (1 % 8)), ("22", none, some (2 % 8)),
   ("33", none, some (3 % 8)), ("44", none, some (4 % 8)),
   ("55", none, some (5 % 8)), ("66", none, some (6 % 8)),
   ("77", none, some (7 % 8)), ("88", none, some (8 % 8))]

/-- **C1 counterexample.**  Under the claim's «indices 1..k (mod 8)»
convention, an exchange needing eight Consecutive Frames sends index
`8 % 8 = 0` for the eighth frame; `Multiline.run` compares against its
unbounded expected counter (`self.frame == frame`, incremented without any
wrap) and a frame index `0` without a positive length even raises a
`TypeError` (`None > 0`): the combined payload reaches `2·L` digits, but no
call ever returns a passthrough — the claim's «once the payload reaches 2·L
digits, run returns a passthrough, exactly once» fails. -/
theorem C1_cx_mod8_wrap :
    (mlFeedSeq none mlInit c1ModFrames).2 =
      [.incomplete, .incomplete, .incomplete, .incomplete, .incomplete,
       .incomplete, .incomplete, .incomplete, .exn] ∧
    (mlFeedSeq none mlInit c1ModFrames).2.all (fun r => !r.isPassthrough) = true ∧
    9 * 2 ≤ pyLen ("00" ++ strConcat ["11", "22", "33", "44", "55", "66", "77", "88"]) := by
  refine ⟨by decide, by decide, by decide⟩

/-- Engine state for the `C1` witness: a `Multiline` task on header `7E0`
collecting toward 9 declared bytes with 8 hex digits gathered. -/
def c1State : ElmState :=
  ⟨[("cmd_caf", .bool false), ("cmd_set_header", .str "7E0")],
   [(some (.str "7E0"), ⟨some 1, some 9, "AABBCCDD", 31, 32⟩)], "default",
   [("default", []), ("AT", [])], [], [], [], []⟩

/-- The engine state the completing Consecutive Frame of the `C1` witness
leaves behind: task destroyed, accounting counter `""` created. -/
def c1After : ElmState :=
  { c1State with counters := c1State.counters ++ [("", .int 1)],
                 tasks := tdel c1State.tasks (some (.str "7E0")) }

theorem C1_multiline_reassembly_witness :
    ((0 < 3 ∧ pyLen "AABB" < 3 * 2 ∧ (["CCDD"] : List String) ≠ [] ∧
        3 * 2 ≤ pyLen "AABB" + sumLens ["CCDD"]) ∧
      ∃ s1 n1 sfin,
        Multiline_run none mlInit "AABB" (some 3) (some 0) = (s1, .incomplete, n1) ∧
        mlFeedCF none s1 1 ["CCDD"] =
          (sfin, List.replicate (["CCDD"].length - 1) .incomplete ++
                 [.passthrough (pyTake ("AABB" ++ strConcat ["CCDD"]) (3 * 2))]) ∧
        sfin.frame = none) ∧
    (len_hex "1122334455667788AABB" = true ∧
      afterPCI c1State .noConn 0 (some (.str "7E0")) "1122334455667788AABB" none (some 1) =
        resolveCmd c1After .noConn 0 (some (.str "7E0")) 0 "AABBCCDD1122334455") := by
  have h := C1_multiline_reassembly
  constructor
  · exact ⟨⟨by decide, by decide, by decide, by decide⟩,
      h.1 none 3 "AABB" ["CCDD"] (by decide) (by decide)
        (by intro k hk
            simp only [List.length_cons, List.length_nil] at hk
            have hk0 : k = 0 := by omega
            subst hk0
            decide)
        (by decide) (by decide)⟩
  · refine ⟨by decide, ?_⟩
    have h2 := h.2 c1State .noConn 0 (some (.str "7E0")) "1122334455667788AABB"
      "AABBCCDD1122334455" none (some 1) ⟨some 1, some 9, "AABBCCDD", 31, 32⟩
      ⟨none, some 9, "AABBCCDD1122334455667788AABB", 30, 32⟩ 0
      (c1State.counters ++ [("", .int 1)])
      (by decide) (by decide) (by decide) (by decide)
    exact h2

/-! ## Hex-formatting and re-parsing lemmas (C2) -/

theorem hexCharU_isHex (d : Nat) (h : d < 16) : isHexDigitC (hexCharU d) = true := by
  interval_cases d <;> decide

theorem hexVal_hexCharU (d : Nat) (h : d < 16) : hexVal (hexCharU d) = d := by
  interval_cases d <;> decide

theorem asciiUpper_hexCharU (d : Nat) (h : d < 16) : asciiUpper (hexCharU d) = hexCharU d := by
  interval_cases d <;> decide

theorem hexDigit_ne_space (c : Char) (h : isHexDigitC c = true) : c ≠ ' ' := by
  intro he
  subst he
  exact absurd h (by decide)

theorem bfha_space (l : List Char) : bytesFromHexAux (' ' :: l) = bytesFromHexAux l := by
  conv_lhs => rw [bytesFromHexAux.eq_def]
  simp

theorem bfha_pair (c1 c2 : Char) (h1 : isHexDigitC c1 = true) (h2 : isHexDigitC c2 = true)
    (l : List Char) :
    bytesFromHexAux (c1 :: c2 :: l) =
      (bytesFromHexAux l).map (fun bs => (16 * hexVal c1 + hexVal c2) :: bs) := by
  simp [bytesFromHexAux, hexDigit_ne_space c1 h1, h1, h2]

theorem bfha_byte (b : Nat) (hb : b < 256) (l : List Char) :
    bytesFromHexAux (hexCharU (b / 16) :: hexCharU (b % 16) :: l) =
      (bytesFromHexAux l).map (fun bs => b :: bs) := by
  have hd : b / 16 < 16 := Nat.div_lt_of_lt_mul (by omega)
  have hm : b % 16 < 16 := Nat.mod_lt _ (by omega)
  rw [bfha_pair _ _ (hexCharU_isHex _ hd) (hexCharU_isHex _ hm),
    hexVal_hexCharU _ hd, hexVal_hexCharU _ hm]
  have : 16 * (b / 16) + b % 16 = b := by omega
  rw [this]

theorem parse_dataStr (bs : List Nat) (hb : ∀ b ∈ bs, b < 256) :
    bytesFromHexAux (spJoin " " (bs.map byteHexU)).data = some bs := by
  induction bs with
  | nil => rfl
  | cons b rest ih =>
    cases rest with
    | nil =>
      show bytesFromHexAux (byteHexU b).data = some [b]
      rw [show (byteHexU b).data = hexCharU (b / 16) :: hexCharU (b % 16) :: [] from rfl]
      rw [bfha_byte b (hb b (by simp)) []]
      rfl
    | cons b' rest' =>
      have hjoin : spJoin " " ((b :: b' :: rest').map byteHexU) =
          byteHexU b ++ " " ++ spJoin " " ((b' :: rest').map byteHexU) := rfl
      rw [hjoin]
      have hdata : (byteHexU b ++ " " ++ spJoin " " ((b' :: rest').map byteHexU)).data =
          hexCharU (b / 16) :: hexCharU (b % 16) :: ' ' ::
            (spJoin " " ((b' :: rest').map byteHexU)).data := by
        simp [String.data_append, byteHexU]
      rw [hdata, bfha_byte b (hb b (by simp)) _, bfha_space,
        ih (fun x hx => hb x (List.mem_cons_of_mem _ hx))]
      rfl

theorem upper_dataStr (bs : List Nat) (hb : ∀ b ∈ bs, b < 256) :
    pyUpper (spJoin " " (bs.map byteHexU)) = spJoin " " (bs.map byteHexU) := by
  induction bs with
  | nil => rfl
  | cons b rest ih =>
    have hdu : b / 16 < 16 := Nat.div_lt_of_lt_mul (by have := hb b (by simp); omega)
    have hmu : b % 16 < 16 := Nat.mod_lt _ (by omega)
    cases rest with
    | nil =>
      show pyUpper (byteHexU b) = byteHexU b
      simp [pyUpper, byteHexU, asciiUpper_hexCharU _ hdu, asciiUpper_hexCharU _ hmu]
    | cons b' rest' =>
      have hjoin : spJoin " " ((b :: b' :: rest').map byteHexU) =
          byteHexU b ++ " " ++ spJoin " " ((b' :: rest').map byteHexU) := rfl
      have ih' := ih (fun x hx => hb x (List.mem_cons_of_mem _ hx))
      have ihd : ((spJoin " " ((b' :: rest').map byteHexU)).data).map asciiUpper =
          (spJoin " " ((b' :: rest').map byteHexU)).data := congrArg String.data ih'
      rw [hjoin]
      apply String.ext
      simp only [pyUpper, String.data_append, List.map_append, byteHexU]
      simp only [List.map_cons] at ihd
      simp [asciiUpper_hexCharU _ hdu, asciiUpper_hexCharU _ hmu, ihd,
        show asciiUpper ' ' = ' ' from rfl]

theorem pyHexUp_two (n : Nat) (h1 : 16 ≤ n) (h2 : n < 256) :
    pyHexUp n = ⟨[hexCharU (n / 16), hexCharU (n % 16)]⟩ := by
  unfold pyHexUp
  cases n with
  | zero => omega
  | succ m =>
    show String.mk (hexListAux (m + 1 + 1) (m + 1)) = _
    rw [show hexListAux (m + 1 + 1) (m + 1) =
        if m + 1 < 16 then [hexCharU (m + 1)]
        else hexListAux (m + 1) ((m + 1) / 16) ++ [hexCharU ((m + 1) % 16)] from rfl]
    rw [if_neg (by omega)]
    have hdiv : (m + 1) / 16 < 16 := Nat.div_lt_of_lt_mul (by omega)
    cases hm : m with
    | zero => omega
    | succ m' =>
      rw [show hexListAux (m' + 1 + 1) ((m' + 1 + 1) / 16) =
          if (m' + 1 + 1) / 16 < 16 then [hexCharU ((m' + 1 + 1) / 16)]
          else hexListAux (m' + 1) ((m' + 1 + 1) / 16 / 16) ++
            [hexCharU ((m' + 1 + 1) / 16 % 16)] from rfl]
      rw [if_pos (by omega)]
      rfl

theorem pyHexUp_one (n : Nat) (h : n < 16) : pyHexUp n = ⟨[hexCharU n]⟩ := by
  unfold pyHexUp
  rw [show hexListAux (n + 1) n =
      if n < 16 then [hexCharU n]
      else hexListAux n (n / 16) ++ [hexCharU (n % 16)] from rfl]
  rw [if_pos h]

theorem fmt02X_eq (n : Nat) (h : n < 256) :
    fmt02X n = ⟨[hexCharU (n / 16), hexCharU (n % 16)]⟩ := by
  unfold fmt02X
  by_cases h16 : n < 16
  · rw [if_pos h16, pyHexUp_one n h16]
    have hd : n / 16 = 0 := Nat.div_eq_of_lt h16
    have hm : n % 16 = n := Nat.mod_eq_of_lt h16
    rw [hd, hm]
    rfl
  · rw [if_neg h16, pyHexUp_two n (by omega) h]

theorem bfha_bad_second (c c2 : Char) (hc : c ≠ ' ') (h2 : isHexDigitC c2 = false)
    (l : List Char) : bytesFromHexAux (c :: c2 :: l) = none := by
  conv_lhs => rw [bytesFromHexAux.eq_def]
  simp [hc, h2]

/-- **C2 counterexample.**  The claim promises «a one-byte length field for
every payload shorter than 16 bytes»; a 10-byte payload takes the
`length < 10`-fails branch of `uds_answer`, which builds the extended
`"80"`-sentinel form with `hex(length)` — a single digit `A` — and the
checksum's `bytearray.fromhex(answer)` re-parse then raises an uncaught
`ValueError` (digit/space pair): no answer is produced at all, let alone the
one-byte form. -/
theorem C2_cx_ten_byte_payload :
    bytesFromHex "00112233445566778899" =
      some [0, 17, 34, 51, 68, 85, 102, 119, 136, 153] ∧
    ([0, 17, 34, 51, 68, 85, 102, 119, 136, 153] : List Nat).length < 16 ∧
    uds_answer [] "00112233445566778899" (some "DAF110") true " " none = none := by
  refine ⟨by decide, by decide, by decide⟩

/-- **C2** (corrected).  `uds_answer` with a 6-hex-digit (29-bit) request
header and no flow control: header echo must be enabled, otherwise the call
is an error yielding the empty answer (first conjunct).  When enabled, the
reply carries the swapped target/source header byte pair (`h[4:6]` then
`h[2:4]`), then the payload, then a trailing checksum byte equal to the sum
of all preceding encoded bytes modulo 256.  The length field is the one-byte
`0x80+len` form only for payloads SHORTER THAN 10 bytes (not 16 as claimed);
payloads of 16–255 bytes get the two-byte extended form (`"80"` sentinel
plus a length byte); payloads of 10–15 bytes crash the checksum re-parse
(`hex(length)` yields a single digit) and produce no answer. -/
theorem C2_uds29_encoding (counters : Counters) (data hdr : String)
    (bs : List Nat) (h0 h1 h2 h3 h4 h5 : Char)
    (hH : pyUpper (stripWs hdr) = ⟨[h0, h1, h2, h3, h4, h5]⟩)
    (hx2 : isHexDigitC h2 = true) (hx3 : isHexDigitC h3 = true)
    (hx4 : isHexDigitC h4 = true) (hx5 : isHexDigitC h5 = true)
    (hbs : bytesFromHex data = some bs)
    (hlt : ∀ b ∈ bs, b < 256) :
    (uds_answer counters data (some hdr) false " " none = some "") ∧
    (bs.length < 10 →
      uds_answer counters data (some hdr) true " " none =
        some (pyHexUp (128 + bs.length) ++ " " ++ ⟨[h4, h5]⟩ ++ " " ++ ⟨[h2, h3]⟩ ++ " " ++
          spJoin " " (bs.map byteHexU) ++ " " ++
          fmt02X ((128 + bs.length + (16 * hexVal h4 + hexVal h5) +
            (16 * hexVal h2 + hexVal h3) + bs.sum) % 256))) ∧
    (16 ≤ bs.length → bs.length ≤ 255 →
      uds_answer counters data (some hdr) true " " none =
        some ("80 " ++ ⟨[h4, h5]⟩ ++ " " ++ ⟨[h2, h3]⟩ ++ " " ++ pyHexUp bs.length ++ " " ++
          spJoin " " (bs.map byteHexU) ++ " " ++
          fmt02X ((128 + (16 * hexVal h4 + hexVal h5) + (16 * hexVal h2 + hexVal h3) +
            bs.length + bs.sum) % 256))) ∧
    (10 ≤ bs.length → bs.length ≤ 15 →
      uds_answer counters data (some hdr) true " " none = none) := by
  have hfun : (fun b : Nat => (⟨[hexCharU (b / 16), hexCharU (b % 16)]⟩ : String)) =
      byteHexU := rfl
  have hne : (⟨[h0, h1, h2, h3, h4, h5]⟩ : String) ≠ "" := by
    simp [String.ext_iff]
  have hup := upper_dataStr bs hlt
  refine ⟨?_, ?_, ?_, ?_⟩
  · simp only [uds_answer, hH, hbs, hfun, hup]
    simp [hne, fcTruthy, pyLen]
  · intro hlen10
    have h128a : 16 ≤ 128 + bs.length := by omega
    have h128b : 128 + bs.length < 256 := by omega
    have hansdata : (pyHexUp (128 + bs.length) ++ " " ++ (⟨[h4, h5]⟩ : String) ++ " " ++
        (⟨[h2, h3]⟩ : String) ++ " " ++ spJoin " " (bs.map byteHexU)).data =
        hexCharU ((128 + bs.length) / 16) :: hexCharU ((128 + bs.length) % 16) :: ' ' ::
          h4 :: h5 :: ' ' :: h2 :: h3 :: ' ' :: (spJoin " " (bs.map byteHexU)).data := by
      rw [pyHexUp_two _ h128a h128b]
      simp [String.data_append]
    have hparse : bytesFromHex (pyHexUp (128 + bs.length) ++ " " ++ (⟨[h4, h5]⟩ : String) ++
        " " ++ (⟨[h2, h3]⟩ : String) ++ " " ++ spJoin " " (bs.map byteHexU)) =
        some ((128 + bs.length) :: (16 * hexVal h4 + hexVal h5) ::
          (16 * hexVal h2 + hexVal h3) :: bs) := by
      unfold bytesFromHex
      rw [hansdata, bfha_byte _ h128b, bfha_space, bfha_pair h4 h5 hx4 hx5, bfha_space,
        bfha_pair h2 h3 hx2 hx3, bfha_space, parse_dataStr bs hlt]
      rfl
    have hsum : ((128 + bs.length) :: (16 * hexVal h4 + hexVal h5) ::
        (16 * hexVal h2 + hexVal h3) :: bs).sum =
        128 + bs.length + (16 * hexVal h4 + hexVal h5) +
          (16 * hexVal h2 + hexVal h3) + bs.sum := by
      simp [List.sum_cons]
      omega
    simp only [uds_answer, hH, hbs, hfun, hup]
    simp only [hne, fcTruthy, pyLen, if_neg]
    simp [hlen10, hparse, hsum, pySlice]
  · intro hlen16 hlen255
    have hLa : 16 ≤ bs.length := hlen16
    have hLb : bs.length < 256 := by omega
    have hansdata : (("80 " : String) ++ (⟨[h4, h5]⟩ : String) ++ " " ++
        (⟨[h2, h3]⟩ : String) ++ " " ++ pyHexUp bs.length ++ " " ++
        spJoin " " (bs.map byteHexU)).data =
        '8' :: '0' :: ' ' :: h4 :: h5 :: ' ' :: h2 :: h3 :: ' ' ::
          hexCharU (bs.length / 16) :: hexCharU (bs.length % 16) :: ' ' ::
          (spJoin " " (bs.map byteHexU)).data := by
      rw [pyHexUp_two _ hLa hLb]
      simp [String.data_append]
    have hparse : bytesFromHex (("80 " : String) ++ (⟨[h4, h5]⟩ : String) ++ " " ++
        (⟨[h2, h3]⟩ : String) ++ " " ++ pyHexUp bs.length ++ " " ++
        spJoin " " (bs.map byteHexU)) =
        some (128 :: (16 * hexVal h4 + hexVal h5) :: (16 * hexVal h2 + hexVal h3) ::
          bs.length :: bs) := by
      unfold bytesFromHex
      rw [hansdata, bfha_pair '8' '0' (by decide) (by decide), bfha_space,
        bfha_pair h4 h5 hx4 hx5, bfha_space, bfha_pair h2 h3 hx2 hx3, bfha_space,
        bfha_byte bs.length hLb, bfha_space, parse_dataStr bs hlt]
      rfl
    have hsum : (128 :: (16 * hexVal h4 + hexVal h5) :: (16 * hexVal h2 + hexVal h3) ::
        bs.length :: bs).sum =
        128 + (16 * hexVal h4 + hexVal h5) + (16 * hexVal h2 + hexVal h3) +
          bs.length + bs.sum := by
      simp [List.sum_cons]
      omega
    simp only [uds_answer, hH, hbs, hfun, hup]
    simp only [hne, fcTruthy, pyLen, if_neg]
    simp [Nat.not_lt.mpr (by omega : 10 ≤ bs.length), hparse, hsum, pySlice]
  · intro hlen10 hlen15
    have hL16 : bs.length < 16 := by omega
    have hcL : hexCharU bs.length ≠ ' ' :=
      hexDigit_ne_space _ (hexCharU_isHex _ hL16)
    have hansdata : (("80 " : String) ++ (⟨[h4, h5]⟩ : String) ++ " " ++
        (⟨[h2, h3]⟩ : String) ++ " " ++ pyHexUp bs.length ++ " " ++
        spJoin " " (bs.map byteHexU)).data =
        '8' :: '0' :: ' ' :: h4 :: h5 :: ' ' :: h2 :: h3 :: ' ' ::
          hexCharU bs.length :: ' ' :: (spJoin " " (bs.map byteHexU)).data := by
      rw [pyHexUp_one _ hL16]
      simp [String.data_append]
    have hparse : bytesFromHex (("80 " : String) ++ (⟨[h4, h5]⟩ : String) ++ " " ++
        (⟨[h2, h3]⟩ : String) ++ " " ++ pyHexUp bs.length ++ " " ++
        spJoin " " (bs.map byteHexU)) = none := by
      unfold bytesFromHex
      rw [hansdata, bfha_pair '8' '0' (by decide) (by decide), bfha_space,
        bfha_pair h4 h5 hx4 hx5, bfha_space, bfha_pair h2 h3 hx2 hx3, bfha_space,
        bfha_bad_second _ _ hcL (by decide)]
      rfl
    simp only [uds_answer, hH, hbs, hfun, hup]
    simp only [hne, fcTruthy, pyLen, if_neg]
    simp [Nat.not_lt.mpr hlen10, hparse, pySlice]

theorem C2_uds29_encoding_witness :
    (pyUpper (stripWs "DAF110") = ⟨['D', 'A', 'F', '1', '1', '0']⟩ ∧
      bytesFromHex "62F1904A" = some [98, 241, 144, 74] ∧
      ([98, 241, 144, 74] : List Nat).length < 10) ∧
    uds_answer [] "62F1904A" (some "DAF110") true " " none =
      some (pyHexUp (128 + ([98, 241, 144, 74] : List Nat).length) ++ " " ++
        ⟨['1', '0']⟩ ++ " " ++ ⟨['F', '1']⟩ ++ " " ++
        spJoin " " (([98, 241, 144, 74] : List Nat).map byteHexU) ++ " " ++
        fmt02X ((128 + ([98, 241, 144, 74] : List Nat).length +
          (16 * hexVal '1' + hexVal '0') + (16 * hexVal 'F' + hexVal '1') +
          ([98, 241, 144, 74] : List Nat).sum) % 256)) :=
  ⟨⟨by decide, by decide, by decide⟩,
   (C2_uds29_encoding [] "62F1904A" "DAF110" [98, 241, 144, 74] 'D' 'A' 'F' '1' '1' '0'
     (by decide) (by decide) (by decide) (by decide) (by decide) (by decide)
     (by decide)).2.1 (by decide)⟩

/-! ## Catalog overlay and priority selection (C5) -/

theorem alookup_map_override {α : Type} (d1 d2 : List (String × α)) (k : String) :
    alookup (d1.map (fun kv => (kv.1, (alookup d2 kv.1).getD kv.2))) k =
      (alookup d1 k).map (fun v => (alookup d2 k).getD v) := by
  induction d1 with
  | nil => rfl
  | cons kv rest ih =>
    obtain ⟨k1, v1⟩ := kv
    by_cases h : k1 = k
    · subst h
      simp [alookup]
    · simp [alookup, h, ih]

theorem alookup_append {α : Type} (l1 l2 : List (String × α)) (k : String) :
    alookup (l1 ++ l2) k =
      match alookup l1 k with
      | some v => some v
      | none => alookup l2 k := by
  induction l1 with
  | nil => rfl
  | cons kv rest ih =>
    obtain ⟨k1, v1⟩ := kv
    by_cases h : k1 = k <;> simp [alookup, h, ih]

theorem alookup_filter_of_some {α : Type} (d1 d2 : List (String × α)) (k : String)
    (h : (alookup d1 k).isSome) :
    alookup (d2.filter (fun kv => (alookup d1 kv.1).isNone)) k = none := by
  induction d2 with
  | nil => rfl
  | cons kv rest ih =>
    obtain ⟨k2, v2⟩ := kv
    simp only [List.filter]
    by_cases hk : k2 = k
    · subst hk
      rw [Option.isSome_iff_exists] at h
      obtain ⟨v, hv⟩ := h
      simp [hv, ih]
    · cases hc : ((alookup d1 k2).isNone : Bool) <;> simp [alookup, hk, ih]

theorem alookup_filter_of_none {α : Type} (d1 d2 : List (String × α)) (k : String)
    (h : alookup d1 k = none) :
    alookup (d2.filter (fun kv => (alookup d1 kv.1).isNone)) k = alookup d2 k := by
  induction d2 with
  | nil => rfl
  | cons kv rest ih =>
    obtain ⟨k2, v2⟩ := kv
    simp only [List.filter]
    by_cases hk : k2 = k
    · subst hk
      simp [h, alookup, ih]
    · cases hc : ((alookup d1 k2).isNone : Bool) <;> simp [alookup, hk, ih]

theorem alookup_dictMerge {α : Type} (d1 d2 : List (String × α)) (k : String) :
    alookup (dictMerge d1 d2) k =
      match alookup d1 k with
      | some v => some ((alookup d2 k).getD v)
      | none => alookup d2 k := by
  unfold dictMerge
  rw [alookup_append, alookup_map_override]
  cases h1 : alookup d1 k with
  | none => simp [alookup_filter_of_none d1 d2 k h1]
  | some v => simp

/-- The entry's `Request` pattern is present and matches `cmd`
(`'Request' in val and re.match(val['Request'], cmd)`). -/
def entMatches (cmd : String) (kv : String × Entry) : Prop :=
  ∃ q, kv.2.request = some q ∧ q cmd = true

/-- An entry with none of the attributes that divert or leave the scan:
no `Header` constraint, no `skip` action, no task plugin, no `Exec`, no
response-generator callables. -/
def entryPlain (kv : String × Entry) : Prop :=
  kv.2.eheader = none ∧ kv.2.action ≠ some "skip" ∧ kv.2.taskName = none ∧
  kv.2.execA = none ∧ kv.2.hasRespHeader = false ∧ kv.2.hasRespFooter = false

theorem scanLoop_not_matching (setHdr : Option CVal) (ht : Bool)
    (ans : List (String × String)) (plg : List String) (rnd : Nat) (cmd : String)
    (c : Counters) (kv : String × Entry) (rest : List (String × Entry))
    (h : ¬ entMatches cmd kv) :
    scanLoop setHdr ht ans plg rnd cmd c (kv :: rest) =
      scanLoop setHdr ht ans plg rnd cmd c rest := by
  obtain ⟨key, val⟩ := kv
  cases hr : val.request with
  | none => simp [scanLoop, hr]
  | some q =>
    have hq : q cmd = false := by
      cases hqc : q cmd
      · rfl
      · exact absurd ⟨q, hr, hqc⟩ h
    simp [scanLoop, hr, hq]

theorem scanLoop_select (setHdr : Option CVal) (ht : Bool)
    (ans : List (String × String)) (plg : List String) (rnd : Nat) (cmd : String)
    (c c' : Counters) (key : String) (val : Entry) (rest : List (String × Entry))
    (q : String → Bool) (r : String)
    (hr : val.request = some q) (hq : q cmd = true)
    (hplain : entryPlain (key, val)) (hkey : key ≠ "")
    (hans : alookup ans key = none)
    (hresp : val.response = some (.strv r))
    (hc : cIncrInit c key = some c') :
    scanLoop setHdr ht ans plg rnd cmd c ((key, val) :: rest) =
      some (c', .sel key (some r)) := by
  obtain ⟨hh, ha, ht2, he, hf1, hf2⟩ := hplain
  simp only [scanLoop, hr, hq, if_pos rfl]
  simp only at hh ha ht2 he hf1 hf2
  simp [hh, hkey, hc, ha, hans, ht2, he, hf1, hf2, hresp]

theorem scanLoop_unique_match (setHdr : Option CVal) (ht : Bool)
    (ans : List (String × String)) (plg : List String) (rnd : Nat) (cmd : String) :
    ∀ (l : List (String × Entry)) (c c' : Counters) (key : String) (val : Entry)
      (q : String → Bool) (r : String),
      (key, val) ∈ l → val.request = some q → q cmd = true →
      (∀ kv ∈ l, entMatches cmd kv → kv = (key, val)) →
      entryPlain (key, val) → key ≠ "" → alookup ans key = none →
      val.response = some (.strv r) → cIncrInit c key = some c' →
      scanLoop setHdr ht ans plg rnd cmd c l = some (c', .sel key (some r)) := by
  intro l
  induction l with
  | nil => intro _ _ _ _ _ _ hmem; simp at hmem
  | cons x rest ih =>
    intro c c' key val q r hmem hr hq honly hplain hkey hans hresp hc
    by_cases hx : entMatches cmd x
    · have hxe : x = (key, val) := honly x (by simp) hx
      subst hxe
      exact scanLoop_select setHdr ht ans plg rnd cmd c c' key val rest q r
        hr hq hplain hkey hans hresp hc
    · rw [scanLoop_not_matching setHdr ht ans plg rnd cmd c x rest hx]
      rcases List.mem_cons.mp hmem with he | hm
      · exact absurd (he ▸ ⟨q, hr, hq⟩) hx
      · exact ih c c' key val q r hm hr hq
          (fun kv hkv hm2 => honly kv (List.mem_cons_of_mem _ hkv) hm2)
          hplain hkey hans hresp hc

theorem scanLoop_lowest_priority (setHdr : Option CVal) (ht : Bool)
    (ans : List (String × String)) (plg : List String) (rnd : Nat) (cmd : String) :
    ∀ (l : List (String × Entry)) (c c' : Counters) (k1 : String) (e1 : Entry)
      (q1 : String → Bool) (r1 : String) (k2 : String) (e2 : Entry),
      l.Pairwise prioLE →
      (k1, e1) ∈ l → e1.request = some q1 → q1 cmd = true →
      entryPrio e1 < entryPrio e2 →
      (∀ kv ∈ l, entMatches cmd kv → kv = (k1, e1) ∨ kv = (k2, e2)) →
      entryPlain (k1, e1) → k1 ≠ "" → alookup ans k1 = none →
      e1.response = some (.strv r1) → cIncrInit c k1 = some c' →
      scanLoop setHdr ht ans plg rnd cmd c l = some (c', .sel k1 (some r1)) := by
  intro l
  induction l with
  | nil => intro _ _ _ _ _ _ _ _ _ hmem; simp at hmem
  | cons x rest ih =>
    intro c c' k1 e1 q1 r1 k2 e2 hpw hmem hr hq hlt honly hplain hkey hans hresp hc
    by_cases hx : entMatches cmd x
    · rcases honly x (by simp) hx with hxe | hxe
      · subst hxe
        exact scanLoop_select setHdr ht ans plg rnd cmd c c' k1 e1 rest q1 r1
          hr hq hplain hkey hans hresp hc
      · subst hxe
        have hm1 : (k1, e1) ∈ rest := by
          rcases List.mem_cons.mp hmem with he | hm
          · exfalso
            have : e1 = e2 := congrArg Prod.snd he
            rw [this] at hlt
            omega
          · exact hm
        have hle : prioLE (k2, e2) (k1, e1) :=
          (List.pairwise_cons.mp hpw).1 _ hm1
        exfalso
        simp only [prioLE] at hle
        omega
    · rw [scanLoop_not_matching setHdr ht ans plg rnd cmd c x rest hx]
      have hm1 : (k1, e1) ∈ rest := by
        rcases List.mem_cons.mp hmem with he | hm
        · exact absurd (he ▸ ⟨q1, hr, hq⟩) hx
        · exact hm
      exact ih c c' k1 e1 q1 r1 k2 e2 (List.pairwise_cons.mp hpw).2 hm1 hr hq hlt
        (fun kv hkv hm2 => honly kv (List.mem_cons_of_mem _ hkv) hm2)
        hplain hkey hans hresp hc

/-- **C5** (confirmed).  (1)-(3): in the `{**default, **AT, **scenario}`
overlay of `setSortedOBDMsg`, the same catalog key takes the scenario
layer's entry when that layer defines it, otherwise `AT`'s, otherwise
`default`'s.  (4): an entry without a `Priority` behaves as the lowest
priority, `10`.  (5): the resolver — the scan of the priority-sorted merged
catalog — selects the unique matching entry; combined with (1), when all
three layers define the same key and the scenario's entry is the one
matching the command, the scenario-specific entry is selected.  (6): among
two matching entries, the one with the lower numeric `Priority` wins
(Python's `sorted` is stable; `insertionSort` over `≤` on priorities is the
same stable sort). -/
theorem C5_priority_resolution :
    (∀ (D A S : List (String × Entry)) (k : String) (e : Entry),
      alookup S k = some e → alookup (dictMerge (dictMerge D A) S) k = some e) ∧
    (∀ (D A S : List (String × Entry)) (k : String) (e : Entry),
      alookup S k = none → alookup A k = some e →
      alookup (dictMerge (dictMerge D A) S) k = some e) ∧
    (∀ (D A S : List (String × Entry)) (k : String) (e : Entry),
      alookup S k = none → alookup A k = none → alookup D k = some e →
      alookup (dictMerge (dictMerge D A) S) k = some e) ∧
    (∀ e : Entry, e.priority = none → entryPrio e = 10) ∧
    (∀ (setHdr : Option CVal) (ht : Bool) (ans : List (String × String))
      (plg : List String) (rnd : Nat) (cmd : String) (c c' : Counters)
      (l : List (String × Entry)) (k : String) (e : Entry) (q : String → Bool)
      (r : String),
      (k, e) ∈ l → e.request = some q → q cmd = true →
      (∀ kv ∈ l, entMatches cmd kv → kv = (k, e)) →
      entryPlain (k, e) → k ≠ "" → alookup ans k = none →
      e.response = some (.strv r) → cIncrInit c k = some c' →
      scanLoop setHdr ht ans plg rnd cmd c (l.insertionSort prioLE) =
        some (c', .sel k (some r))) ∧
    (∀ (setHdr : Option CVal) (ht : Bool) (ans : List (String × String))
      (plg : List String) (rnd : Nat) (cmd : String) (c c' : Counters)
      (l : List (String × Entry)) (k1 : String) (e1 : Entry) (q1 : String → Bool)
      (r1 : String) (k2 : String) (e2 : Entry),
      (k1, e1) ∈ l → e1.request = some q1 → q1 cmd = true →
      entryPrio e1 < entryPrio e2 →
      (∀ kv ∈ l, entMatches cmd kv → kv = (k1, e1) ∨ kv = (k2, e2)) →
      entryPlain (k1, e1) → k1 ≠ "" → alookup ans k1 = none →
      e1.response = some (.strv r1) → cIncrInit c k1 = some c' →
      scanLoop setHdr ht ans plg rnd cmd c (l.insertionSort prioLE) =
        some (c', .sel k1 (some r1))) ∧
    (∀ (st st' : ElmState) (sc : String) (D A S : List (String × Entry))
      (k : String) (eD eA eS : Entry) (q : String → Bool) (r : String)
      (setHdr : Option CVal) (ht : Bool) (ans : List (String × String))
      (plg : List String) (rnd : Nat) (cmd : String) (c c' : Counters),
      alookup st.obdMessage "default" = some D →
      alookup st.obdMessage "AT" = some A →
      alookup st.obdMessage sc = some S →
      setSortedOBDMsg st (some sc) = some st' →
      alookup D k = some eD → alookup A k = some eA → alookup S k = some eS →
      eS.request = some q → q cmd = true →
      (∀ kv ∈ dictMerge (dictMerge D A) S, entMatches cmd kv → kv = (k, eS)) →
      entryPlain (k, eS) → k ≠ "" → alookup ans k = none →
      eS.response = some (.strv r) → cIncrInit c k = some c' →
      scanLoop setHdr ht ans plg rnd cmd c st'.sortedOBDMsg =
        some (c', .sel k (some r))) := by
  have hmerge1 : ∀ (D A S : List (String × Entry)) (k : String) (e : Entry),
      alookup S k = some e → alookup (dictMerge (dictMerge D A) S) k = some e := by
    intro D A S k e hS
    rw [alookup_dictMerge]
    cases h1 : alookup (dictMerge D A) k <;> simp [hS]
  refine ⟨hmerge1, ?_, ?_, ?_, ?_, ?_, ?_⟩
  · intro D A S k e hS hA
    rw [alookup_dictMerge, alookup_dictMerge]
    cases hD : alookup D k <;> simp [hS, hA]
  · intro D A S k e hS hA hD
    rw [alookup_dictMerge, alookup_dictMerge]
    simp [hS, hA, hD]
  · intro e h
    simp [entryPrio, h]
  · intro setHdr ht ans plg rnd cmd c c' l k e q r hmem hr hq honly hplain hkey
      hans hresp hc
    exact scanLoop_unique_match setHdr ht ans plg rnd cmd _ c c' k e q r
      ((List.mem_insertionSort prioLE).mpr hmem) hr hq
      (fun kv hkv hm => honly kv ((List.mem_insertionSort prioLE).mp hkv) hm)
      hplain hkey hans hresp hc
  · intro setHdr ht ans plg rnd cmd c c' l k1 e1 q1 r1 k2 e2 hmem hr hq hlt honly
      hplain hkey hans hresp hc
    exact scanLoop_lowest_priority setHdr ht ans plg rnd cmd _ c c' k1 e1 q1 r1 k2 e2
      (List.sorted_insertionSort prioLE l)
      ((List.mem_insertionSort prioLE).mpr hmem) hr hq hlt
      (fun kv hkv hm => honly kv ((List.mem_insertionSort prioLE).mp hkv) hm)
      hplain hkey hans hresp hc
  · intro st st' sc D A S k eD eA eS q r setHdr ht ans plg rnd cmd c c'
      hD hA hS hset hDk hAk hSk hr hq honly hplain hkey hans hresp hc
    have hmergedS : alookup (dictMerge (dictMerge D A) S) k = some eS :=
      hmerge1 D A S k eS hSk
    have hmem : (k, eS) ∈ dictMerge (dictMerge D A) S := alookup_mem _ _ _ hmergedS
    have hsorted : st'.sortedOBDMsg =
        (dictMerge (dictMerge D A) S).insertionSort prioLE := by
      unfold setSortedOBDMsg at hset
      simp only [hD, hA, hS, Option.isSome_some, and_self, if_pos, Option.getD_some,
        Option.map_some'] at hset
      have := (Option.some.inj hset).symm
      rw [this]
    rw [hsorted]
    exact scanLoop_unique_match setHdr ht ans plg rnd cmd _ c c' k eS q r
      ((List.mem_insertionSort prioLE).mpr hmem) hr hq
      (fun kv hkv hm => honly kv ((List.mem_insertionSort prioLE).mp hkv) hm)
      hplain hkey hans hresp hc

/-- The match predicate of the `C5` witness entries (`re.match` against a
pattern matching the `010C` command). -/
def c5q (c : String) : Bool := c == "010C"

/-- `default`-layer entry of the `C5` witness (priority 3). -/
def c5eD : Entry := ⟨some c5q, none, some 3, some (.strv "41 0C 0B EA"), none, none, none, false, false⟩

/-- `AT`-layer entry of the `C5` witness (priority 4). -/
def c5eA : Entry := ⟨some c5q, none, some 4, some (.strv "41 0C 0B EB"), none, none, none, false, false⟩

/-- Scenario-layer entry of the `C5` witness (priority 7 — larger than both
overlaid layers', yet it wins by the key overlay). -/
def c5eS : Entry := ⟨some c5q, none, some 7, some (.strv "41 0C 0B EC"), none, none, none, false, false⟩

/-- Catalog state for the `C5` witness: the `default`, `AT` and `scn` layers
all bind the key `ENGINE_RPM`. -/
def c5Cat : ElmState :=
  ⟨[], [], "default",
   [("default", [("ENGINE_RPM", c5eD)]), ("AT", [("ENGINE_RPM", c5eA)]),
    ("scn", [("ENGINE_RPM", c5eS)])], [], [], [], []⟩

/-- The state `setSortedOBDMsg` produces for scenario `scn` on `c5Cat`. -/
def c5Cat' : ElmState :=
  ⟨[], [], "scn",
   [("default", [("ENGINE_RPM", c5eD)]), ("AT", [("ENGINE_RPM", c5eA)]),
    ("scn", [("ENGINE_RPM", c5eS)])], [("ENGINE_RPM", c5eS)], [], [], []⟩

theorem C5_priority_resolution_witness :
    (setSortedOBDMsg c5Cat (some "scn") = some c5Cat' ∧
      alookup [("ENGINE_RPM", c5eD)] "ENGINE_RPM" = some c5eD ∧
      alookup [("ENGINE_RPM", c5eA)] "ENGINE_RPM" = some c5eA ∧
      alookup [("ENGINE_RPM", c5eS)] "ENGINE_RPM" = some c5eS ∧
      c5q "010C" = true ∧ entryPrio c5eD < entryPrio c5eS) ∧
    scanLoop none false [] [] 0 "010C" [] c5Cat'.sortedOBDMsg =
      some ([("ENGINE_RPM", .int 1)], .sel "ENGINE_RPM" (some "41 0C 0B EC")) := by
  have hmg : dictMerge (dictMerge [("ENGINE_RPM", c5eD)] [("ENGINE_RPM", c5eA)])
      [("ENGINE_RPM", c5eS)] = [("ENGINE_RPM", c5eS)] := rfl
  refine ⟨⟨rfl, rfl, rfl, rfl, by decide, by decide⟩, ?_⟩
  exact (C5_priority_resolution).2.2.2.2.2.2 c5Cat c5Cat' "scn"
    [("ENGINE_RPM", c5eD)] [("ENGINE_RPM", c5eA)] [("ENGINE_RPM", c5eS)]
    "ENGINE_RPM" c5eD c5eA c5eS c5q "41 0C 0B EC" none false [] [] 0 "010C"
    [] [("ENGINE_RPM", .int 1)]
    rfl rfl rfl rfl rfl rfl rfl rfl (by decide)
    (by intro kv hkv _
        rw [hmg] at hkv
        simpa using hkv)
    ⟨rfl, by decide, rfl, rfl, rfl, rfl⟩ (by decide) rfl rfl (by decide)
